import Mathlib

/-!
# Verification of the `timeseries/stats_task.py` statistics-collection module

A shallow embedding of the stats-collection module of the repository:
the five domain collectors (`write_bot_data`, `write_adventure_data`,
`write_audio_data`, `write_shards_data`, `write_currency_data`), the
external vote fetch (`get_votes`), the cycle dispatcher (`run_events`,
modelling `asyncio.gather(..., return_exceptions=True)`), the scheduler
loop (`update_task`) and the store initialiser (`init_bot_stats`).

Modelling conventions:
* Python exceptions are modelled with `Except PyErr`; a `try/except
  Exception: log` block around a body is `tryLog`.
* Python `dict` / `collections.Counter` / `defaultdict(set)` objects are
  insertion-ordered association lists (`dset` replaces in place or
  appends, matching CPython dict semantics; `dincr` is `c[k] += v` with
  the `Counter` default of `0`; `dinsertTally` is `d[k].add(x)` on a
  `defaultdict(set)`).
* The published-stats store (`bot.stats.<category>`) holds dynamically
  assigned attributes; each category is modelled as a partial map
  `String → Option Rat` (`fset` is `setattr`).  Numeric values are
  modelled in `Rat` (Python ints and floats; float rounding is not
  modelled, division is exact).
* The host object graph (discord guilds/members/channels, the lavalink
  player registry, the bank and adventure records, config flags and the
  outcome of the outbound HTTP request) is passed in as explicit input
  data, read-only, exactly as the collectors read it.
-/

namespace StatsTask

/-- The Python exception species that the module's code paths can raise. -/
inductive PyErr where
  /-- A host API call (config/bank read, `bot.latencies`, ...) raised. -/
  | hostError
  /-- `KeyError` from a mapping subscript. -/
  | keyError
  /-- `ValueError`, e.g. `int("")` after stripping non-digits. -/
  | valueError
  /-- `TypeError`. -/
  | typeError
  /-- `AttributeError` from reading a missing attribute. -/
  | attributeError
  /-- `aiohttp.ServerTimeoutError` / `asyncio.TimeoutError`. -/
  | timeoutError
  /-- Any other `aiohttp` transport error (e.g. connection failure). -/
  | transportError
  deriving Repr, DecidableEq

/-! ## Insertion-ordered dictionaries (Python `dict` / `Counter`) -/

variable {κ : Type} {α : Type} [DecidableEq κ]

/-- Keys of an association list, in insertion order. -/
def keys (d : List (κ × α)) : List κ := d.map Prod.fst

/-- `d.get(k)`: first (and, for dicts built by `dset`, only) binding of `k`. -/
def dget? (d : List (κ × α)) (k : κ) : Option α :=
  match d with
  | [] => none
  | (k0, v0) :: rest => if k0 = k then some v0 else dget? rest k

/-- `d.get(k, dflt)`. -/
def dgetD (d : List (κ × α)) (k : κ) (dflt : α) : α := (dget? d k).getD dflt

/-- `d[k] = v` with CPython dict semantics: replace in place if the key is
present, otherwise append at the end (insertion order). -/
def dset (d : List (κ × α)) (k : κ) (v : α) : List (κ × α) :=
  match d with
  | [] => [(k, v)]
  | (k0, v0) :: rest => if k0 = k then (k, v) :: rest else (k0, v0) :: dset rest k v

/-- `Counter` increment `c[k] += v` (missing key counts as `0`). -/
def dincr (d : List (κ × Rat)) (k : κ) (v : Rat) : List (κ × Rat) :=
  dset d k (dgetD d k 0 + v)

/-- `defaultdict(set)` insertion `d[k].add(x)`. -/
def dinsertTally (d : List (κ × Finset ℕ)) (k : κ) (x : ℕ) : List (κ × Finset ℕ) :=
  dset d k (insert x (dgetD d k ∅))

/-- `d2.update(d1)`-style merge: fold `dset` of every binding of `e` into `d`. -/
def dupdate (d e : List (κ × α)) : List (κ × α) :=
  e.foldl (fun acc kv => dset acc kv.1 kv.2) d

@[simp] theorem dget?_nil (k : κ) : dget? ([] : List (κ × α)) k = none := rfl

theorem dget?_dset_self (d : List (κ × α)) (k : κ) (v : α) :
    dget? (dset d k v) k = some v := by
  induction d with
  | nil => simp [dset, dget?]
  | cons kv rest ih =>
    obtain ⟨k0, v0⟩ := kv
    by_cases h : k0 = k
    · simp [dset, h, dget?]
    · simp [dset, h, dget?, ih]

theorem dget?_dset_ne (d : List (κ × α)) (k k' : κ) (v : α) (h : k' ≠ k) :
    dget? (dset d k v) k' = dget? d k' := by
  have hne : ¬ k = k' := fun hh => h hh.symm
  induction d with
  | nil => simp [dset, dget?, hne]
  | cons kv rest ih =>
    obtain ⟨k0, v0⟩ := kv
    by_cases h0 : k0 = k
    · subst h0
      simp [dset, dget?, hne]
    · simp [dset, h0, dget?, ih]

theorem mem_keys_dset (d : List (κ × α)) (k k' : κ) (v : α)
    (h : k' ∈ keys (dset d k v)) : k' = k ∨ k' ∈ keys d := by
  induction d with
  | nil =>
    simp only [dset, keys, List.map_cons, List.map_nil, List.mem_singleton] at h
    exact Or.inl h
  | cons kv rest ih =>
    obtain ⟨k0, v0⟩ := kv
    by_cases h0 : k0 = k
    · subst h0
      have hd : dset ((k0, v0) :: rest) k0 v = (k0, v) :: rest := by simp [dset]
      rw [hd] at h
      simp only [keys, List.map_cons, List.mem_cons] at h ⊢
      tauto
    · have hd : dset ((k0, v0) :: rest) k v = (k0, v0) :: dset rest k v := by
        simp [dset, h0]
      rw [hd] at h
      simp only [keys, List.map_cons, List.mem_cons] at h ⊢
      rcases h with h | h
      · exact Or.inr (Or.inl h)
      · rcases ih h with h1 | h1
        · exact Or.inl h1
        · exact Or.inr (Or.inr h1)

theorem nodup_keys_dset (d : List (κ × α)) (k : κ) (v : α)
    (h : (keys d).Nodup) : (keys (dset d k v)).Nodup := by
  induction d with
  | nil => simp [dset, keys]
  | cons kv rest ih =>
    obtain ⟨k0, v0⟩ := kv
    rw [keys, List.map_cons, List.nodup_cons] at h
    by_cases h0 : k0 = k
    · subst h0
      have hd : dset ((k0, v0) :: rest) k0 v = (k0, v) :: rest := by simp [dset]
      rw [hd, keys, List.map_cons, List.nodup_cons]
      exact h
    · have hd : dset ((k0, v0) :: rest) k v = (k0, v0) :: dset rest k v := by
        simp [dset, h0]
      rw [hd, keys, List.map_cons, List.nodup_cons]
      refine ⟨?_, ih h.2⟩
      intro hmem
      rcases mem_keys_dset rest k k0 v hmem with h1 | h1
      · exact h0 h1
      · exact h.1 h1

theorem dget?_eq_none_of_not_mem_keys (d : List (κ × α)) (k : κ)
    (h : k ∉ keys d) : dget? d k = none := by
  induction d with
  | nil => rfl
  | cons kv rest ih =>
    obtain ⟨k0, v0⟩ := kv
    simp only [keys, List.map_cons, List.mem_cons] at h
    push_neg at h
    have h0 : ¬ k0 = k := fun hh => h.1 hh.symm
    simp [dget?, h0, ih h.2]

theorem not_mem_keys_of_dget?_eq_none (d : List (κ × α)) (k : κ)
    (h : dget? d k = none) : k ∉ keys d := by
  induction d with
  | nil => simp [keys]
  | cons kv rest ih =>
    obtain ⟨k0, v0⟩ := kv
    simp only [dget?] at h
    by_cases h0 : k0 = k
    · simp [h0] at h
    · simp only [if_neg h0] at h
      simp only [keys, List.map_cons, List.mem_cons]
      push_neg
      exact ⟨fun hh => h0 hh.symm, ih h⟩

theorem mem_keys_of_dget?_eq_some (d : List (κ × α)) (k : κ) (v : α)
    (h : dget? d k = some v) : k ∈ keys d := by
  by_contra hk
  rw [dget?_eq_none_of_not_mem_keys d k hk] at h
  exact Option.noConfusion h

/-! ## The published-stats store: dynamically assigned attributes -/

/-- A store category: `SimpleNamespace` attributes, label → numeric value. -/
def Category : Type := String → Option Rat

/-- `setattr(ns, k, v)`. -/
def fset (f : Category) (k : String) (v : Rat) : Category :=
  fun k' => if k' = k then some v else f k'

/-- The empty category (a fresh `SimpleNamespace()`). -/
def emptyCat : Category := fun _ => none

@[simp] theorem fset_self (f : Category) (k : String) (v : Rat) :
    fset f k v k = some v := by simp [fset]

theorem fset_ne (f : Category) (k k' : String) (v : Rat) (h : k' ≠ k) :
    fset f k v k' = f k' := by simp [fset, h]

/-- `for key, value in counter.items(): setattr(ns, str(key), value)`. -/
def writeAll (f : Category) (c : List (String × Rat)) : Category :=
  c.foldl (fun g kv => fset g kv.1 kv.2) f

theorem writeAll_notin (f : Category) (c : List (String × Rat)) (k : String)
    (h : k ∉ keys c) : writeAll f c k = f k := by
  induction c generalizing f with
  | nil => rfl
  | cons kv rest ih =>
    obtain ⟨k0, v0⟩ := kv
    simp only [keys, List.map_cons, List.mem_cons] at h
    push_neg at h
    simp only [writeAll, List.foldl_cons]
    rw [show (List.foldl (fun g kv => fset g kv.1 kv.2) (fset f k0 v0) rest)
        = writeAll (fset f k0 v0) rest from rfl]
    rw [ih (fset f k0 v0) h.2, fset_ne _ _ _ _ h.1]

theorem writeAll_mem (f : Category) (c : List (String × Rat)) (k : String) (v : Rat)
    (hnd : (keys c).Nodup) (h : dget? c k = some v) : writeAll f c k = some v := by
  induction c generalizing f with
  | nil => exact absurd h (by simp [dget?])
  | cons kv rest ih =>
    obtain ⟨k0, v0⟩ := kv
    simp only [keys, List.map_cons, List.nodup_cons] at hnd
    simp only [writeAll, List.foldl_cons]
    rw [show (List.foldl (fun g kv => fset g kv.1 kv.2) (fset f k0 v0) rest)
        = writeAll (fset f k0 v0) rest from rfl]
    by_cases h0 : k0 = k
    · subst h0
      simp only [dget?, if_pos rfl] at h
      rw [writeAll_notin _ _ _ hnd.1, fset_self]
      exact congrArg some (Option.some.inj h)
    · simp only [dget?, if_neg h0] at h
      exact ih (fset f k0 v0) hnd.2 h

/-- Lookup after a counter dump: present counter keys win, others keep the
old attribute value. -/
theorem writeAll_get (f : Category) (c : List (String × Rat)) (k : String)
    (hnd : (keys c).Nodup) :
    writeAll f c k = match dget? c k with
      | some v => some v
      | none => f k := by
  cases h : dget? c k with
  | none => simp [writeAll_notin f c k (not_mem_keys_of_dget?_eq_none c k h)]
  | some v => simp [writeAll_mem f c k v hnd h]

/-! ## The published-stats store namespace (`bot.stats`) -/

/-- The process-wide published-stats store after `init_bot_stats` has run:
one `SimpleNamespace` per category, written by the collectors. -/
structure StatsNS where
  guilds : Category
  bot : Category
  shards : Category
  audio : Category
  currency : Category
  guilds_regions : Category
  guild_features : Category
  guild_verification : Category
  adventure : Category

/-- The store as created at startup: every category empty. -/
def initStats : StatsNS :=
  ⟨emptyCat, emptyCat, emptyCat, emptyCat, emptyCat, emptyCat, emptyCat,
    emptyCat, emptyCat⟩

/-- `try: <body> except Exception: log.exception(...)` around a collector
body: a raised exception is caught and logged, and the collector's store
writes for the cycle are skipped (the store is left as it was). -/
def tryLog (st : StatsNS) (r : Except PyErr StatsNS) : Except PyErr StatsNS :=
  match r with
  | .ok st2 => .ok st2
  | .error _ => .ok st

/-- `asyncio.gather(*tasks, return_exceptions=b)` over the cooperative
single-threaded scheduler: the tasks run to completion in order; with
`return_exceptions = true` an exception raised by a task is captured in
the result list (and ignored by `run_events`) instead of propagating. -/
def asyncio_gather (return_exceptions : Bool)
    (tasks : List (StatsNS → Except PyErr StatsNS)) (st : StatsNS) :
    Except PyErr StatsNS :=
  match tasks with
  | [] => .ok st
  | t :: ts =>
    match t st with
    | .ok st2 => asyncio_gather return_exceptions ts st2
    | .error e =>
      if return_exceptions then asyncio_gather return_exceptions ts st
      else .error e

/-! ## `get_votes`: the external vote fetch -/

/-- A top.gg vote response body (`resp.json()`), label → integer. -/
abbrev VoteBody := List (String × Int)

/-- Outcome of the single outbound HTTPS GET in `get_votes`. -/
inductive ReqOutcome where
  /-- `aiohttp.ServerTimeoutError` / `asyncio.TimeoutError` raised. -/
  | timeout
  /-- any other `aiohttp` transport error raised (connection failure, ...). -/
  | transportFail
  /-- a response arrived with the given status code and parsed body. -/
  | response (status : Nat) (body : VoteBody)
  deriving Repr

/-- The request inside the `with` block of `get_votes`: `none` models the
early `return {}` on a non-200 status; raised errors are the request's
timeout or transport failures. -/
def vote_request : ReqOutcome → Except PyErr (Option VoteBody)
  | .timeout => .error .timeoutError
  | .transportFail => .error .transportError
  | .response status body => if status ≠ 200 then .ok none else .ok (some body)

/-- `get_votes(bot)`: returns `{}` when no `dbl` api key is configured;
performs the request under `contextlib.suppress(aiohttp.ServerTimeoutError,
asyncio.TimeoutError)` (so a suppressed timeout falls through to
`return data` with `data = {}`); any other exception propagates. -/
def get_votes (api_key : String) (outcome : ReqOutcome) : Except PyErr VoteBody :=
  if api_key = "" then .ok []
  else
    match vote_request outcome with
    | .error e => if e = .timeoutError then .ok [] else .error e
    | .ok none => .ok []
    | .ok (some d) => .ok d

/-! ## `write_currency_data`: the currency collector (not `try`-wrapped) -/

/-- A per-user bank record; `value["balance"]`. -/
structure CurAcct where
  balance : Int
  deriving Repr, DecidableEq

/-- The `AsyncIter(list(accounts.items()), steps=b)` summation: the batch
size `b` controls how many records are consumed between the iterator's
yield points; fuel (`accounts.length`) makes the recursion structural. -/
def sumBatchGo (b : Nat) : Nat → List (Nat × CurAcct) → Int → Int
  | _, [], acc => acc
  | 0, _ :: _, acc => acc
  | fuel + 1, x :: xs, acc =>
      sumBatchGo b fuel ((x :: xs).drop b)
        (acc + (((x :: xs).take b).map (fun a => a.2.balance)).sum)

/-- `overall = 0; async for key, value in AsyncIter(...): overall += value["balance"]`. -/
def sumBalancesBatched (b : Nat) (accounts : List (Nat × CurAcct)) : Int :=
  sumBatchGo b accounts.length accounts 0

/-- `write_currency_data(bot)`: reads all bank user records, sums the
balances in yielding batches, and writes `"Currency In Circulation"` to the
currency category.  NOTE: the source has no `try/except` here — a failing
`bank._config.all_users()` read propagates out of the collector. -/
def write_currency_data (steps : Nat)
    (accounts : Except PyErr (List (Nat × CurAcct))) (st : StatsNS) :
    Except PyErr StatsNS := do
  let accts ← accounts
  let overall := sumBalancesBatched steps accts
  let counter := dset ([] : List (String × Rat)) "Currency In Circulation"
    ((overall : Rat))
  .ok { st with currency := writeAll st.currency counter }

/-! ## `write_shards_data`: the shard-latency collector (not `try`-wrapped) -/

/-- Python `int()` on a float/rational: truncation toward zero. -/
def pyTrunc (q : Rat) : Int := if q < 0 then -(Int.floor (-q)) else Int.floor q

/-- `write_shards_data(bot)`: for each `(index, latency)` of `bot.latencies`
write the latency in whole milliseconds under the 1-based shard index.
NOTE: no `try/except` — a failing `bot.latencies` read propagates. -/
def write_shards_data (latencies : Except PyErr (List (Int × Rat)))
    (st : StatsNS) : Except PyErr StatsNS := do
  let ls ← latencies
  let shards2 :=
    ls.foldl
      (fun f il => fset f (toString (il.1 + 1)) ((pyTrunc (il.2 * 1000) : Int) : Rat))
      st.shards
  .ok { st with shards := shards2 }

/-! ## `write_audio_data`: the audio collector -/

/-- A lavalink player; `is_playing` distinguishes the active players
(`lavalink.active_players()` is the playing subset of
`lavalink.all_players()`, per the audio-player registry of the spec). -/
structure Player where
  is_playing : Bool
  deriving Repr, DecidableEq

/-- A Python value held in the audio counter: `MartTools.get_value` may
return an int or a string-formatted counter. -/
inductive PyVal where
  | int (n : Int)
  | str (s : String)
  deriving Repr, DecidableEq

/-- The optional MartTools cog (present iff loaded, with its `get_value`). -/
structure MartTools where
  get_value : String → PyVal

/-- Reading a counter entry as an int (`TypeError` if it is not one). -/
def pyValAsInt : PyVal → Except PyErr Int
  | .int n => .ok n
  | .str _ => .error .typeError

/-- `cs` interpreted as a decimal numeral. -/
def digitsToNat (cs : List Char) : Nat :=
  cs.foldl (fun n c => n * 10 + (c.toNat - 48)) 0

/-- `int(re.sub(r"\D", "", value))`: strip non-digits, then parse;
`int("")` raises `ValueError`. -/
def pyParseDigits (s : String) : Except PyErr Int :=
  let ds := s.toList.filter (fun c => c.isDigit)
  if ds.isEmpty then .error .valueError
  else .ok (Int.ofNat (digitsToNat ds))

/-- The 13 extra per-source counters read from MartTools in detailed mode. -/
def martToolsWrites (mt : MartTools) (c : List (String × PyVal)) :
    List (String × PyVal) :=
  let c := dset c "Tracks Played" (mt.get_value "tracks_played")
  let c := dset c "Streams Played" (mt.get_value "streams_played")
  let c := dset c "YouTube Streams Played" (mt.get_value "yt_streams_played")
  let c := dset c "Mixer Streams Played" (mt.get_value "mixer_streams_played")
  let c := dset c "Twitch Streams Played" (mt.get_value "ttv_streams_played")
  let c := dset c "Other Streams Played" (mt.get_value "other_streams_played")
  let c := dset c "YouTube Videos Played" (mt.get_value "youtube_tracks")
  let c := dset c "SoundCloud Tracks Played" (mt.get_value "soundcloud_tracks")
  let c := dset c "Bandcamp Tracks Played" (mt.get_value "bandcamp_tracks")
  let c := dset c "Vimeo Tracks Played" (mt.get_value "vimeo_tracks")
  let c := dset c "Mixer Tracks Played" (mt.get_value "mixer_tracks")
  let c := dset c "TwichTV Videos Played" (mt.get_value "twitch_tracks")
  let c := dset c "Other Tracks Played" (mt.get_value "other_tracks")
  c

/-- The final write loop of `write_audio_data`: string values are
normalised by stripping non-digits before parsing (which can raise). -/
def audio_write_loop (f : Category) : List (String × PyVal) → Except PyErr Category
  | [] => .ok f
  | (k, v) :: rest => do
    let n ← match v with
      | .str s => pyParseDigits s
      | .int n => .ok n
    audio_write_loop (fset f k ((n : Rat))) rest

/-- `write_audio_data(bot, config_cache)`: early return under light mode;
otherwise count active/total/inactive players, optionally add the
MartTools counters in detailed mode, and dump the counter into the audio
category; the whole body is `try`-wrapped. -/
def write_audio_data (lightmode detailed : Bool) (players : List Player)
    (mt? : Option MartTools) (st : StatsNS) : Except PyErr StatsNS :=
  if lightmode then .ok st
  else
    tryLog st (do
      let c := dset ([] : List (String × PyVal)) "Active Music Players"
        (.int ((players.filter (fun p => p.is_playing)).length))
      let c := dset c "Music Players" (.int (players.length))
      let mp ← pyValAsInt (dgetD c "Music Players" (.int 0))
      let ap ← pyValAsInt (dgetD c "Active Music Players" (.int 0))
      let c := dset c "Inactive Music Players" (.int (mp - ap))
      let c := if detailed then
          (match mt? with
           | some mt => martToolsWrites mt c
           | none => c)
        else c
      let audio2 ← audio_write_loop st.audio c
      .ok { st with audio := audio2 })

/-! ## The host object graph consumed by `write_bot_data` -/

/-- `discord.Status` (the `mobile/desktop/web_status` reads use the same type). -/
inductive PyStatus where
  | online
  | idle
  | dnd
  | offline
  deriving Repr, DecidableEq

/-- `discord.ActivityType` as tested by the activity classification. -/
inductive ActivityType where
  | streaming
  | playing
  | listening
  | watching
  | custom
  | unknown
  deriving Repr, DecidableEq

/-- A `discord.Member` with exactly the attributes the collector reads. -/
structure Member where
  id : ℕ
  bot : Bool
  on_mobile : Bool
  activities : List ActivityType
  status : PyStatus
  mobile_status : PyStatus
  desktop_status : PyStatus
  web_status : PyStatus
  deriving Repr, DecidableEq

/-- A guild channel, dispatched by `isinstance` in the source. -/
inductive Channel where
  | text (id : ℕ) (nsfw : Bool) (news : Bool)
  | voice (id : ℕ) (members : List Member)
  | category (id : ℕ)
  | other (id : ℕ)
  deriving Repr, DecidableEq

/-- A `discord.Emoji` (only `animated` is read). -/
structure Emoji where
  animated : Bool
  deriving Repr, DecidableEq

/-- A `discord.Guild` with the attributes the collector reads.
`member_count` is the host-reported attribute (`getattr(guild,
"member_count", 0)`), which is distinct data from the cached `members`
list that the member loop iterates. -/
structure Guild where
  id : ℕ
  unavailable : Bool
  member_count : Int
  features : List String
  verification_level : String
  roles : List ℕ
  large : Bool
  chunked : Bool
  premium_tier : ℕ
  channels : List Channel
  emojis : List Emoji
  members : List Member
  deriving Repr, DecidableEq

/-- The module-level `features` name-lookup table. -/
def featuresTable : List (String × String) :=
  [("VIP_REGIONS", "VIP Voice Servers"),
   ("VANITY_URL", "Vanity URL"),
   ("INVITE_SPLASH", "Splash Invite"),
   ("VERIFIED", "Verified"),
   ("PARTNERED", "Partnered"),
   ("MORE_EMOJI", "More Emojis"),
   ("DISCOVERABLE", "Server Discovery"),
   ("FEATURABLE", "Featurable"),
   ("COMMERCE", "Commerce"),
   ("PUBLIC", "Public"),
   ("NEWS", "News Channels"),
   ("BANNER", "Banner Image"),
   ("ANIMATED_ICON", "Animated Icon"),
   ("PUBLIC_DISABLED", "Public disabled"),
   ("MEMBER_LIST_DISABLED", "Member list disabled"),
   ("ENABLED_DISCOVERABLE_BEFORE", "Was in Server Discovery"),
   ("WELCOME_SCREEN_ENABLED", "Welcome Screen")]

/-- The module-level `verify` verification-level lookup table. -/
def verifyTable : List (String × String) :=
  [("none", "None"), ("low", "Low"), ("medium", "Medium"), ("high", "High"),
   ("extreme", "Extreme")]

/-- `features.get(f"{feature}") or "Unknown"`. -/
def featureLabel (f : String) : String := (dget? featuresTable f).getD "Unknown"

/-- `verify.get(f"{guild.verification_level}") or "Unknown"`. -/
def verifyLabel (v : String) : String := (dget? verifyTable v).getD "Unknown"

/-- The per-pass working counters of `write_bot_data`: the two `Counter`s,
the three histogram `Counter`s, and the two `defaultdict(set)` tallies. -/
structure PassState where
  counter : List (String × Rat)
  server_counter : List (String × Rat)
  region_count : List (String × Rat)
  verify_count : List (String × Rat)
  features_count : List (String × Rat)
  temp_data : List (String × Finset ℕ)
  server_temp_data : List (String × Finset ℕ)

/-- Classify into a users bucket plus its bot/human split. -/
def addUBH (td : List (String × Finset ℕ)) (m : Member) (u b h : String) :
    List (String × Finset ℕ) :=
  let td := dinsertTally td u m.id
  if m.bot then dinsertTally td b m.id else dinsertTally td h m.id

/-- One step of the activity classification loop (body of
`async for a in AsyncIter(member.activities, steps=5, delay=0.01)`; the
`steps`/`delay` arguments only insert cooperative sleeps every 5 items and
do not limit the iteration).  The accumulator carries the tallies and the
`streaming` flag. -/
def processActivity (m : Member) (acc : List (String × Finset ℕ) × Bool)
    (a : ActivityType) : List (String × Finset ℕ) × Bool :=
  let td := acc.1
  let streaming := acc.2
  let step1 : List (String × Finset ℕ) × Bool :=
    if a = .streaming then
      (addUBH td m "Users Streaming" "Bots Streaming" "Humans Streaming", true)
    else if a = .playing then
      (addUBH td m "Users Gaming" "Bots Gaming" "Humans Gaming", streaming)
    else (td, streaming)
  let td := step1.1
  let streaming := step1.2
  let td := if a = .listening then
      addUBH td m "Users Listening" "Bots Listening" "Humans Listening"
    else td
  let td := if a = .watching then
      addUBH td m "Users Watching" "Bots Watching" "Humans Watching"
    else td
  let td := if a = .custom then
      addUBH td m "Users with Custom Status" "Bots with Custom Status"
        "Humans with Custom Status"
    else td
  (td, streaming)

/-- The whole activity loop: every activity of the member is processed. -/
def processActivities (m : Member) (td : List (String × Finset ℕ)) :
    List (String × Finset ℕ) × Bool :=
  m.activities.foldl (processActivity m) (td, false)

/-- The `if not streaming:` overall-presence classification. -/
def processStatus (m : Member) (td : List (String × Finset ℕ)) :
    List (String × Finset ℕ) :=
  let td := if m.status ≠ .offline then
      addUBH td m "Users Connected" "Bots Connected" "Humans Connected"
    else td
  if m.status = .online then
    addUBH td m "Users Online" "Bots Online" "Humans Online"
  else if m.status = .idle then
    addUBH td m "Idle Users" "Idle Bots" "Idle Humans"
  else if m.status = .dnd then
    addUBH td m "Users in Do Not Disturb" "Bots in Do Not Disturb"
      "Humans in Do Not Disturb"
  else if m.status = .offline then
    addUBH td m "Users Offline" "Bots Offline" "Human Offline"
  else td

/-- One per-platform `if/elif` presence chain (the same shape is used for
the mobile, desktop and web statuses). -/
def platformTally (s : PyStatus) (onlineK idleK dndK offlineK : String)
    (td : List (String × Finset ℕ)) (mid : ℕ) : List (String × Finset ℕ) :=
  if s = .online then dinsertTally td onlineK mid
  else if s = .idle then dinsertTally td idleK mid
  else if s = .dnd then dinsertTally td dndK mid
  else if s = .offline then dinsertTally td offlineK mid
  else td

/-- The per-platform (mobile/desktop/web) presence classification. -/
def processPlatform (m : Member) (td : List (String × Finset ℕ)) :
    List (String × Finset ℕ) :=
  let td := platformTally m.mobile_status "Users Online on Mobile"
    "Users Idle on Mobile" "Users in Do Not Disturb on Mobile"
    "Users Offline on Mobile" td m.id
  let td := platformTally m.desktop_status "Users Online on Desktop"
    "Users Idle on Desktop" "Users in Do Not Disturb on Desktop"
    "Users Offline on Desktop" td m.id
  platformTally m.web_status "Users Online on Browser" "Users Idle on Browser"
    "Users in Do Not Disturb on Browser" "Users Offline on Browser" td m.id

/-- The body of the member loop (lines 197-302): unique/bot/human tallies
always; activity, overall-status and platform classification when
`detailed`. -/
def processMember (detailed : Bool) (m : Member)
    (td : List (String × Finset ℕ)) : List (String × Finset ℕ) :=
  let td := dinsertTally td "Unique Users" m.id
  let td := if m.bot then dinsertTally td "Bots" m.id
    else dinsertTally td "Humans" m.id
  if detailed then
    let td := if m.on_mobile then dinsertTally td "Mobile Users" m.id else td
    let res := processActivities m td
    let td := res.1
    let streaming := res.2
    let td := if streaming = false then processStatus m td else td
    processPlatform m td
  else td

/-- The channel loop body, dispatching on channel kind; `guild.me in
channel.members` is discord's id-based member equality against the bot's
own user id. -/
def processChannel (me_id : ℕ) (ps : PassState) (ch : Channel) : PassState :=
  let ps := { ps with server_counter := dincr ps.server_counter "Server Channels" 1 }
  match ch with
  | .text cid nsfw news =>
    let ps := { ps with server_counter := dincr ps.server_counter "Text Channels" 1 }
    let ps := if nsfw then
        { ps with temp_data := dinsertTally ps.temp_data "NSFW Text Channels" cid }
      else ps
    if news then
      { ps with temp_data := dinsertTally ps.temp_data "News Text Channels" cid }
    else ps
  | .voice _ mems =>
    let ps := { ps with server_counter := dincr ps.server_counter "Voice Channels" 1 }
    let ps := { ps with counter := dincr ps.counter "Users in a VC" ((mems.length : Rat)) }
    if mems.any (fun m => m.id = me_id) then
      let c2 := dincr ps.counter "Users in a VC with me" ((mems.length : Rat) - 1)
      let ps := { ps with counter := c2 }
      let sc2 := dincr ps.server_counter "Bots in a VC with me"
        (((mems.filter (fun m => m.bot)).length : Rat) - 1)
      let ps := { ps with server_counter := sc2 }
      mems.foldl
        (fun ps m =>
          if m.on_mobile then
            { ps with temp_data := dinsertTally ps.temp_data "Users in a VC on Mobile" m.id }
          else ps)
        ps
    else ps
  | .category _ =>
    { ps with server_counter := dincr ps.server_counter "Channel Categories" 1 }
  | .other _ => ps

/-- The large/unchunked/boost-tier tallies of the guild loop
(lines 150-162), all on `server_temp_data`. -/
def guildFlagsTally (g : Guild) (std : List (String × Finset ℕ)) :
    List (String × Finset ℕ) :=
  let std := if g.large then dinsertTally std "Large" g.id else std
  let std := if g.chunked = false then dinsertTally std "Unchunked" g.id else std
  let std := if g.premium_tier ≠ 0 then dinsertTally std "Nitro Boosted" g.id
    else std
  if g.premium_tier = 1 then dinsertTally std "Tier 1 Nitro" g.id
  else if g.premium_tier = 2 then dinsertTally std "Tier 2 Nitro" g.id
  else if g.premium_tier = 3 then dinsertTally std "Tier 3 Nitro" g.id
  else std

/-- The emoji loop body. -/
def processEmoji (sc : List (String × Rat)) (e : Emoji) : List (String × Rat) :=
  let sc := dincr sc "Emojis" 1
  if e.animated then dincr sc "Animated Emojis" 1 else dincr sc "Static Emojis" 1

/-- The not-light-mode section of the guild loop (lines 143-195): the
feature/verification histograms when `detailed`, the role count, the
large/unchunked/boost tallies, the channel loop and the emoji loop. -/
def guildHeavySection (detailed : Bool) (me_id : ℕ) (g : Guild)
    (ps : PassState) : PassState :=
  let ps :=
    if detailed then
      let fc1 := g.features.foldl (fun fc f => dincr fc (featureLabel f) 1)
        ps.features_count
      let ps := { ps with features_count := fc1 }
      let vc1 := dincr ps.verify_count (verifyLabel g.verification_level) 1
      { ps with verify_count := vc1 }
    else ps
  let sc2 := dincr ps.server_counter "Roles" ((g.roles.length : Rat))
  let ps := { ps with server_counter := sc2 }
  let ps := { ps with server_temp_data := guildFlagsTally g ps.server_temp_data }
  let ps := g.channels.foldl (processChannel me_id) ps
  { ps with server_counter := g.emojis.foldl processEmoji ps.server_counter }

/-- The guild loop body (lines 136-302).  Unavailable guilds only join the
`"Unavailable"` tally; the heavy section runs only when not in light mode;
the member loop always runs (the commented-out `region_count` line is
dead, so `region_count` is never touched). -/
def processGuild (lightmode detailed : Bool) (me_id : ℕ) (ps : PassState)
    (g : Guild) : PassState :=
  if g.unavailable then
    { ps with server_temp_data := dinsertTally ps.server_temp_data "Unavailable" g.id }
  else
    let sc1 := dincr ps.server_counter "Members" ((g.member_count : Rat))
    let ps := { ps with server_counter := sc1 }
    let ps :=
      if lightmode = false then guildHeavySection detailed me_id g ps
      else ps
    { ps with temp_data :=
      g.members.foldl (fun td m => processMember detailed m td) ps.temp_data }

/-- The set tallies flattened to counts at the end of the pass:
`for key, value in t.items(): c[key] = len(value)`. -/
def flattenTally (c : List (String × Rat)) (t : List (String × Finset ℕ)) :
    List (String × Rat) :=
  t.foldl (fun c kv => dset c kv.1 ((kv.2.card : Rat))) c

/-- The host data `write_bot_data` reads from the bot object itself. -/
structure BotInput where
  guilds : List Guild
  shard_count : Int
  /-- `int(round(bot.latency * 1000))` under `suppress(OverflowError)`:
  `none` models the overflow (infinite latency) path where the entry is
  skipped, `some ms` the computed milliseconds. -/
  latency_ms? : Option Int
  me_id : ℕ
  api_key : String
  vote_outcome : ReqOutcome

/-- The `try`-protected body of `write_bot_data` (lines 116-319). -/
def write_bot_data_body (b : BotInput) (lightmode detailed topgg : Bool)
    (st : StatsNS) : Except PyErr StatsNS := do
  let counter : List (String × Rat) := []
  let counter ←
    if topgg then do
      let vote_data ← get_votes b.api_key b.vote_outcome
      if vote_data ≠ [] then
        let c := match dget? vote_data "monthlyPoints" with
          | some v => if v ≠ 0 then dset counter "Monthly Votes" ((v : Rat)) else counter
          | none => counter
        let c := match dget? vote_data "points" with
          | some v => if v ≠ 0 then dset c "Votes" ((v : Rat)) else c
          | none => c
        pure c
      else pure counter
    else pure counter
  let server_counter := dset ([] : List (String × Rat)) "Total" ((b.guilds.length : Rat))
  let counter := match b.latency_ms? with
    | some ms => dset counter "Discord Latency" ((ms : Rat))
    | none => counter
  let counter := dset counter "Shards" ((b.shard_count : Rat))
  let ps : PassState := ⟨counter, server_counter, [], [], [], [], []⟩
  let ps := b.guilds.foldl (processGuild lightmode detailed b.me_id) ps
  let counter2 := flattenTally ps.counter ps.temp_data
  let server2 := flattenTally ps.server_counter ps.server_temp_data
  .ok { st with
    bot := writeAll st.bot counter2
    guilds := writeAll st.guilds server2
    guilds_regions := writeAll st.guilds_regions ps.region_count
    guild_features := writeAll st.guild_features ps.features_count
    guild_verification := writeAll st.guild_verification ps.verify_count }

/-- `write_bot_data(bot, config_cache)`: the config flags are read before
the `try` block (under light mode `detailed` and `topgg` are forced to
`False`); the whole collection body is `try`-wrapped. -/
def write_bot_data (b : BotInput) (lightmode detailed_cfg topgg_cfg : Bool)
    (st : StatsNS) : Except PyErr StatsNS :=
  let detailed := if lightmode then false else detailed_cfg
  let topgg := if lightmode then false else topgg_cfg
  tryLog st (write_bot_data_body b lightmode detailed topgg st)

/-! ## `write_adventure_data`: the game-subsystem collector -/

/-- A raw per-user save record of the Adventure cog, as an arbitrary
mapping: the three keys the code touches, each possibly missing; the
`adventures` value is itself a mapping with integer values (possibly with
keys outside the recognised eight). -/
structure AdvRaw where
  adventures? : Option (List (String × Int))
  rebirths? : Option Int
  set_items? : Option Int
  deriving Repr, DecidableEq

/-- The zero-valued default `adventures` sub-record. -/
def zeroAdventures : List (String × Int) :=
  [("wins", 0), ("loses", 0), ("fight", 0), ("spell", 0), ("talk", 0),
   ("pray", 0), ("run", 0), ("fumbles", 0)]

/-- The recognised adventure sub-keys (the keys of the literal dict the
source tests membership in). -/
def advKeys : List String :=
  ["wins", "loses", "fight", "spell", "talk", "pray", "run", "fumbles"]

/-- The backfill loop (lines 334-352): missing `adventures` gets the
zero sub-record, missing `rebirths`/`set_items` get `0`. -/
def backfillAdv (v : AdvRaw) : AdvRaw :=
  { adventures? := some (v.adventures?.getD zeroAdventures)
    rebirths? := some (v.rebirths?.getD 0)
    set_items? := some (v.set_items?.getD 0) }

/-- The user-data extraction loop (lines 353-368), with `v.items()`
iterated in the fixed order `adventures, rebirths, set_items` (lookups
into the result do not depend on this order for well-formed records).
The whole `adventures` sub-record is merged (`user_data.update(vi)`) as
soon as any of its keys is a recognised adventure key. -/
def extractUserData (v : AdvRaw) : List (String × Int) :=
  let ud : List (String × Int) := []
  let ud := match v.adventures? with
    | some vi => if vi.any (fun kv => kv.1 ∈ advKeys) then dupdate ud vi else ud
    | none => ud
  let ud := match v.rebirths? with
    | some n => dset ud "rebirths" n
    | none => ud
  match v.set_items? with
  | some n => dset ud "set_items" n
  | none => ud

/-- Building `raw_accounts_new` (lines 331-372): per user, backfill then
extract; only non-empty user data is merged in, keyed by user id. -/
def buildAccountsNew (raw : List (ℕ × AdvRaw)) : List (ℕ × List (String × Int)) :=
  raw.foldl
    (fun acc kv =>
      let v := backfillAdv kv.2
      let ud := extractUserData v
      if ud ≠ [] then dset acc kv.1 ud else acc)
    []

/-- The tally loop (lines 373-384) over `raw_accounts_new`. -/
def tallyAdventure (accs : List (ℕ × List (String × Int))) : List (String × Rat) :=
  accs.foldl
    (fun c kv =>
      let u := kv.2
      let c := dincr c "Set Items" ((dgetD u "set_items" 0 : Int) : Rat)
      let c := dincr c "Rebirths" ((dgetD u "rebirths" 0 : Int) : Rat)
      let c := dincr c "Wins" ((dgetD u "wins" 0 : Int) : Rat)
      let c := dincr c "Losses" ((dgetD u "loses" 0 : Int) : Rat)
      let c := dincr c "Physical Attacks" ((dgetD u "fight" 0 : Int) : Rat)
      let c := dincr c "Magical Attacks" ((dgetD u "spell" 0 : Int) : Rat)
      let c := dincr c "Diplomatic Attacks" ((dgetD u "talk" 0 : Int) : Rat)
      let c := dincr c "Prayers" ((dgetD u "pray" 0 : Int) : Rat)
      let c := dincr c "Retreats" ((dgetD u "run" 0 : Int) : Rat)
      dincr c "Fumbles" ((dgetD u "fumbles" 0 : Int) : Rat))
    []

/-- The derived-value publication (lines 392-401): read `Wins`/`Losses`
back from the adventure namespace (an absent attribute would raise
`AttributeError`), publish `Adventures = Wins + Losses` and the two
percentages, which are `0` when the total is falsy (`if total_adventure:`). -/
def publishAdventure (adv : Category) : Except PyErr Category := do
  let wins ← match adv "Wins" with
    | some w => Except.ok w
    | none => Except.error PyErr.attributeError
  let losses ← match adv "Losses" with
    | some l => Except.ok l
    | none => Except.error PyErr.attributeError
  let total := wins + losses
  let win_per := if total ≠ 0 then wins / total else 0
  let loss_per := if total ≠ 0 then losses / total else 0
  let adv := fset adv "Adventures" total
  let adv := fset adv "Win Percentage" (win_per * 100)
  Except.ok (fset adv "Loss Percentage" (loss_per * 100))

/-- `write_adventure_data(bot, config_cache)`: returns immediately when
the Adventure cog is not loaded or light mode is on (both checks happen
before the `try`); otherwise the body reads all user records (a host read
that can raise, caught by the `try`), tallies them, seeds `Wins`/`Losses`
with `0`, dumps the tally, and publishes the derived values. -/
def write_adventure_data (adv_cog? : Option (Except PyErr (List (ℕ × AdvRaw))))
    (lightmode : Bool) (st : StatsNS) : Except PyErr StatsNS :=
  match adv_cog? with
  | none => .ok st
  | some raw_read =>
    if lightmode then .ok st
    else
      tryLog st (do
        let raw ← raw_read
        let accs := buildAccountsNew raw
        let adventure_count := tallyAdventure accs
        let adv := fset st.adventure "Wins" 0
        let adv := fset adv "Losses" 0
        let adv := writeAll adv adventure_count
        let adv2 ← publishAdventure adv
        .ok { st with adventure := adv2 })

/-! ## `run_events`: one cycle over all five collectors -/

/-- Everything one cycle reads from the host: the bot object graph, the
three config flags, and the host reads of the other collectors. -/
structure Inputs where
  bot : BotInput
  lightmode : Bool
  detailed : Bool
  topgg : Bool
  accounts : Except PyErr (List (ℕ × CurAcct))
  latencies : Except PyErr (List (Int × Rat))
  players : List Player
  martTools? : Option MartTools
  adv_cog? : Option (Except PyErr (List (ℕ × AdvRaw)))

/-- `run_events(bot, config_cache)`: dispatch the five collectors through
`asyncio.gather(..., return_exceptions=True)`. -/
def run_events (I : Inputs) (st : StatsNS) : Except PyErr StatsNS :=
  asyncio_gather true
    [fun s => write_bot_data I.bot I.lightmode I.detailed I.topgg s,
     fun s => write_currency_data 50 I.accounts s,
     fun s => write_shards_data I.latencies s,
     fun s => write_audio_data I.lightmode I.detailed I.players I.martTools? s,
     fun s => write_adventure_data I.adv_cog? I.lightmode s]
    st

/-! ## `update_task`: the scheduler loop -/

/-- Observable events of the scheduler loop. `clearReady` is listed so the
trace can witness that the loop never clears the ready event. -/
inductive SchedEvent where
  | setReady
  | clearReady
  | sleep (n : ℕ)
  deriving Repr, DecidableEq

/-- One iteration of the `while True` loop of `update_task` (lines
520-529): `ok` says whether `await run_events(...)` completed without a
top-level exception; the `except` arm logs and sleeps 10, the `else` arm
sets the ready event if it is not yet set and sleeps 60. -/
def update_cycle (ready : Bool) (ok : Bool) : Bool × List SchedEvent :=
  if ok then
    if ready then (ready, [.sleep 60])
    else (true, [.setReady, .sleep 60])
  else (ready, [.sleep 10])

/-- The scheduler loop run over a finite prefix of cycle outcomes,
returning the final ready flag and the per-cycle event trace. -/
def update_run (ready : Bool) : List Bool → Bool × List (List SchedEvent)
  | [] => (ready, [])
  | ok :: rest =>
    let step := update_cycle ready ok
    let tail := update_run step.1 rest
    (tail.1, step.2 :: tail.2)

/-! ## `init_bot_stats`: store initialisation -/

/-- The `bot.stats` namespace before/after initialisation: each category
attribute may be absent; `to_dict` is modelled by its presence. -/
structure RawStats where
  guilds? : Option Category
  bot? : Option Category
  shards? : Option Category
  audio? : Option Category
  currency? : Option Category
  guilds_regions? : Option Category
  guild_features? : Option Category
  guild_verification? : Option Category
  adventure? : Option Category
  to_dict? : Option Bool

/-- The bot-level attributes `init_bot_stats` touches: `bot.stats`,
`bot._stats_task` (attribute presence, then a possibly-`None` task
handle), and `bot._stats_ready` (an `asyncio.Event`, modelled by its
`is_set` flag). -/
structure RawBot where
  stats? : Option RawStats
  stats_task? : Option (Option ℕ)
  stats_ready? : Option Bool

/-- A fresh `SimpleNamespace()` for `bot.stats`. -/
def emptyRawStats : RawStats :=
  ⟨none, none, none, none, none, none, none, none, none, none⟩

/-- `init_bot_stats(bot)` (lines 536-558): create `bot.stats` if absent;
create each missing category namespace; attach `to_dict` if absent; then
default `_stats_task` to `None` and `_stats_ready` to a fresh unset event,
each only if the attribute is absent. -/
def init_bot_stats (b : RawBot) : RawBot :=
  let stats := b.stats?.getD emptyRawStats
  let stats := { stats with
    guilds? := some (stats.guilds?.getD emptyCat)
    bot? := some (stats.bot?.getD emptyCat)
    shards? := some (stats.shards?.getD emptyCat)
    audio? := some (stats.audio?.getD emptyCat)
    currency? := some (stats.currency?.getD emptyCat)
    guilds_regions? := some (stats.guilds_regions?.getD emptyCat)
    guild_features? := some (stats.guild_features?.getD emptyCat)
    guild_verification? := some (stats.guild_verification?.getD emptyCat)
    adventure? := some (stats.adventure?.getD emptyCat) }
  let stats := if stats.to_dict?.isSome then stats
    else { stats with to_dict? := some true }
  { stats? := some stats
    stats_task? := some (b.stats_task?.getD none)
    stats_ready? := some (b.stats_ready?.getD false) }

/-- All the `hasattr` checks of `init_bot_stats` succeed. -/
def isInitialized (b : RawBot) : Bool :=
  match b.stats? with
  | none => false
  | some s =>
    s.guilds?.isSome && s.bot?.isSome && s.shards?.isSome && s.audio?.isSome &&
    s.currency?.isSome && s.guilds_regions?.isSome && s.guild_features?.isSome &&
    s.guild_verification?.isSome && s.adventure?.isSome && s.to_dict?.isSome &&
    b.stats_task?.isSome && b.stats_ready?.isSome

/-! ## General lemmas about the embedding -/

theorem tryLog_isOk (st : StatsNS) (r : Except PyErr StatsNS) :
    ∃ s, tryLog st r = .ok s := by
  cases r with
  | ok s => exact ⟨s, rfl⟩
  | error e => exact ⟨st, rfl⟩

theorem asyncio_gather_true_isOk (tasks : List (StatsNS → Except PyErr StatsNS)) :
    ∀ st, ∃ s, asyncio_gather true tasks st = .ok s := by
  induction tasks with
  | nil => intro st; exact ⟨st, rfl⟩
  | cons t ts ih =>
    intro st
    cases h : t st with
    | ok st2 =>
      obtain ⟨s, hs⟩ := ih st2
      exact ⟨s, by rw [asyncio_gather, h]; exact hs⟩
    | error e =>
      obtain ⟨s, hs⟩ := ih st
      exact ⟨s, by rw [asyncio_gather, h]; exact hs⟩

theorem write_bot_data_isOk (b : BotInput) (lm dc tc : Bool) (st : StatsNS) :
    ∃ s, write_bot_data b lm dc tc st = .ok s :=
  tryLog_isOk st _

theorem write_audio_data_isOk (lm dc : Bool) (players : List Player)
    (mt? : Option MartTools) (st : StatsNS) :
    ∃ s, write_audio_data lm dc players mt? st = .ok s := by
  cases lm with
  | true => exact ⟨st, rfl⟩
  | false => exact tryLog_isOk st _

theorem write_adventure_data_isOk (c? : Option (Except PyErr (List (ℕ × AdvRaw))))
    (lm : Bool) (st : StatsNS) :
    ∃ s, write_adventure_data c? lm st = .ok s := by
  cases c? with
  | none => exact ⟨st, rfl⟩
  | some r =>
    cases lm with
    | true => exact ⟨st, rfl⟩
    | false => exact tryLog_isOk st _

/-! ## C1: fault containment at the collector boundaries -/

/-- **C1** (counterexample).  The claim says every fault raised inside a
collector is caught at that collector's own boundary and that no exception
escapes any of the five collector functions.  `write_currency_data` has no
`try/except`: when the bank read raises, the exception escapes the
collector itself (it is only absorbed later by the scheduler-side
`asyncio.gather(..., return_exceptions=True)`). -/
theorem currency_fault_escapes_collector :
    write_currency_data 50 (Except.error PyErr.hostError) initStats
      = Except.error PyErr.hostError := rfl

/-- **C1** (amended).  The three collectors whose bodies are wrapped in
`try/except` (`write_bot_data`, `write_audio_data`, `write_adventure_data`)
never let an exception escape; `write_shards_data` and
`write_currency_data` are not wrapped and can raise, but `run_events`
gathers all five with `return_exceptions=True`, so no exception escapes one
whole cycle to the scheduler loop. -/
theorem collector_fault_containment (I : Inputs) (st : StatsNS) :
    (∃ s, write_bot_data I.bot I.lightmode I.detailed I.topgg st = Except.ok s) ∧
    (∃ s, write_audio_data I.lightmode I.detailed I.players I.martTools? st = Except.ok s) ∧
    (∃ s, write_adventure_data I.adv_cog? I.lightmode st = Except.ok s) ∧
    (∃ s, run_events I st = Except.ok s) :=
  ⟨write_bot_data_isOk _ _ _ _ _, write_audio_data_isOk _ _ _ _ _,
   write_adventure_data_isOk _ _ _, asyncio_gather_true_isOk _ st⟩

/-! ## C3: the `get_votes` contract -/

/-- **C3** (counterexample).  The claim says `get_votes` returns an empty
mapping on any transport error and never raises; but the source only
suppresses `aiohttp.ServerTimeoutError` and `asyncio.TimeoutError`, so a
non-timeout transport error propagates out of `get_votes`. -/
theorem get_votes_transport_error_raises :
    get_votes "token" ReqOutcome.transportFail
      = Except.error PyErr.transportError := rfl

/-- **C3** (amended).  `get_votes` returns `{}` when no credential is
configured, on a request timeout, and on a non-200 status; it returns the
parsed body on a 200 response; a non-timeout transport error is raised
(and is then caught by the caller's `try` in `write_bot_data`). -/
theorem get_votes_contract (key : String) (outcome : ReqOutcome)
    (status : ℕ) (body : VoteBody) :
    (get_votes "" outcome = Except.ok []) ∧
    (key ≠ "" → get_votes key ReqOutcome.timeout = Except.ok []) ∧
    (key ≠ "" → status ≠ 200 →
      get_votes key (ReqOutcome.response status body) = Except.ok []) ∧
    (key ≠ "" → get_votes key (ReqOutcome.response 200 body) = Except.ok body) ∧
    (key ≠ "" → get_votes key ReqOutcome.transportFail
      = Except.error PyErr.transportError) := by
  refine ⟨rfl, ?_, ?_, ?_, ?_⟩
  · intro hk
    simp [get_votes, vote_request, hk]
  · intro hk hs
    simp [get_votes, vote_request, hk, hs]
  · intro hk
    simp [get_votes, vote_request, hk]
  · intro hk
    simp [get_votes, vote_request, hk]

/-- **C3** (witness for the amended contract). -/
theorem get_votes_contract_witness :
    get_votes "token2" ReqOutcome.timeout = Except.ok [] ∧
    get_votes "token2" (ReqOutcome.response 404 [("points", 3)]) = Except.ok [] ∧
    get_votes "token2" (ReqOutcome.response 200 [("points", 3)])
      = Except.ok [("points", 3)] ∧
    get_votes "token2" ReqOutcome.transportFail = Except.error PyErr.transportError :=
  ⟨(get_votes_contract "token2" ReqOutcome.timeout 404 []).2.1 (by decide),
   (get_votes_contract "token2" ReqOutcome.timeout 404 [("points", 3)]).2.2.1
     (by decide) (by decide),
   (get_votes_contract "token2" ReqOutcome.timeout 200 [("points", 3)]).2.2.2.1
     (by decide),
   (get_votes_contract "token2" ReqOutcome.timeout 404 []).2.2.2.2 (by decide)⟩

/-! ## C10: idempotence of `init_bot_stats` -/

/-- **C10**.  On a bot object whose `hasattr` checks all succeed (i.e. one
that `init_bot_stats` has already initialised, regardless of what counter
values collectors have written since), a second `init_bot_stats` call is
the identity: categories, counter values, `to_dict`, the task handle and
the ready event are all preserved, and no category is reset. -/
theorem init_bot_stats_idempotent (b : RawBot) (h : isInitialized b = true) :
    init_bot_stats b = b := by
  obtain ⟨so, tk, rd⟩ := b
  cases so with
  | none => simp [isInitialized] at h
  | some s =>
    obtain ⟨g, bo, sh, au, cu, gr, gf, gv, ad, td⟩ := s
    simp only [isInitialized, Bool.and_eq_true] at h
    obtain ⟨⟨⟨⟨⟨⟨⟨⟨⟨⟨⟨hg, hbo⟩, hsh⟩, hau⟩, hcu⟩, hgr⟩, hgf⟩, hgv⟩, had⟩, htd⟩,
      hto⟩, hro⟩ := h
    cases g with
    | none => simp at hg
    | some gc =>
    cases bo with
    | none => simp at hbo
    | some boc =>
    cases sh with
    | none => simp at hsh
    | some shc =>
    cases au with
    | none => simp at hau
    | some auc =>
    cases cu with
    | none => simp at hcu
    | some cuc =>
    cases gr with
    | none => simp at hgr
    | some grc =>
    cases gf with
    | none => simp at hgf
    | some gfc =>
    cases gv with
    | none => simp at hgv
    | some gvc =>
    cases ad with
    | none => simp at had
    | some adc =>
    cases td with
    | none => simp at htd
    | some tdc =>
    cases tk with
    | none => simp at hto
    | some tkc =>
    cases rd with
    | none => simp at hro
    | some rdc =>
    simp [init_bot_stats]

/-- A bot object that has been initialised and then had counter values
written into its categories: used to witness C10. -/
def sampleReadyBot : RawBot :=
  { stats? := some
      { guilds? := some (fset emptyCat "Total" 3)
        bot? := some (fset (fset emptyCat "Unique Users" 2) "Shards" 1)
        shards? := some (fset emptyCat "1" 42)
        audio? := some emptyCat
        currency? := some (fset emptyCat "Currency In Circulation" 1000)
        guilds_regions? := some emptyCat
        guild_features? := some emptyCat
        guild_verification? := some emptyCat
        adventure? := some emptyCat
        to_dict? := some true }
    stats_task? := some (some 7)
    stats_ready? := some true }

/-- **C10** (witness). -/
theorem init_bot_stats_idempotent_witness :
    isInitialized sampleReadyBot = true ∧
    init_bot_stats sampleReadyBot = sampleReadyBot :=
  ⟨rfl, init_bot_stats_idempotent sampleReadyBot rfl⟩

/-! ## C2: the ready signal fires exactly once -/

theorem update_cycle_fst_true (ok : Bool) : (update_cycle true ok).1 = true := by
  cases ok <;> rfl

theorem update_run_true_no_set (outs : List Bool) :
    ∀ evs ∈ (update_run true outs).2, SchedEvent.setReady ∉ evs := by
  induction outs with
  | nil => simp [update_run]
  | cons ok rest ih =>
    intro evs hevs
    have h2 : evs = (update_cycle true ok).2 ∨
        evs ∈ (update_run (update_cycle true ok).1 rest).2 := by
      simpa [update_run, List.mem_cons] using hevs
    rcases h2 with rfl | h
    · cases ok <;> simp [update_cycle]
    · rw [update_cycle_fst_true] at h
      exact ih evs h

theorem update_run_no_clear (r : Bool) (outs : List Bool) :
    ∀ evs ∈ (update_run r outs).2, SchedEvent.clearReady ∉ evs := by
  induction outs generalizing r with
  | nil => simp [update_run]
  | cons ok rest ih =>
    intro evs hevs
    have h2 : evs = (update_cycle r ok).2 ∨
        evs ∈ (update_run (update_cycle r ok).1 rest).2 := by
      simpa [update_run, List.mem_cons] using hevs
    rcases h2 with rfl | h
    · cases r <;> cases ok <;> simp [update_cycle]
    · exact ih _ evs h

theorem mem_of_mem_getD {α : Type} (L : List (List α)) (i : ℕ) (x : α)
    (h : x ∈ L.getD i []) : ∃ l ∈ L, x ∈ l := by
  induction L generalizing i with
  | nil => simp [List.getD] at h
  | cons l0 L ih =>
    cases i with
    | zero =>
      refine ⟨l0, List.mem_cons_self _ _, ?_⟩
      simpa [List.getD] using h
    | succ i' =>
      obtain ⟨l, hl, hx⟩ := ih i' (by simpa [List.getD] using h)
      exact ⟨l, List.mem_cons_of_mem _ hl, hx⟩

/-- **C2**.  Started not-ready, the scheduler loop over any sequence of
cycle outcomes (`true` = the cycle completed without a top-level
exception): the `setReady` event occurs exactly once over the whole trace
iff some cycle succeeds (zero times otherwise), the ready event is never
cleared, and `setReady` happens in cycle `i` precisely when cycle `i` is
the first cycle that completes without a top-level exception. -/
theorem ready_signal_exactly_once (outs : List Bool) :
    ((update_run false outs).2.flatten.count SchedEvent.setReady
      = if outs.any (fun o => o) then 1 else 0) ∧
    ((update_run false outs).2.flatten.count SchedEvent.clearReady = 0) ∧
    ∀ i, SchedEvent.setReady ∈ ((update_run false outs).2.getD i [])
      ↔ (outs.getD i false = true ∧ ∀ j, j < i → outs.getD j true = false) := by
  refine ⟨?_, ?_, ?_⟩
  · induction outs with
    | nil => simp [update_run]
    | cons ok rest ih =>
      cases ok with
      | true =>
        have h0 : SchedEvent.setReady ∉ (update_run true rest).2.flatten := by
          rw [List.mem_flatten]
          push_neg
          exact fun l hl => update_run_true_no_set rest l hl
        simp [update_run, update_cycle, List.count_append,
          List.count_eq_zero.mpr h0]
      | false =>
        simpa [update_run, update_cycle, List.count_append] using ih
  · rw [List.count_eq_zero, List.mem_flatten]
    push_neg
    exact fun l hl => update_run_no_clear false outs l hl
  · induction outs with
    | nil => intro i; simp [update_run, List.getD]
    | cons ok rest ih =>
      intro i
      cases ok with
      | true =>
        cases i with
        | zero => simp [update_run, update_cycle, List.getD]
        | succ i' =>
          constructor
          · intro hmem
            exfalso
            have : SchedEvent.setReady ∈
                ((update_run true rest).2).getD i' [] := by
              simpa [update_run, update_cycle, List.getD] using hmem
            obtain ⟨l, hl, hx⟩ := mem_of_mem_getD _ _ _ this
            exact update_run_true_no_set rest l hl hx
          · rintro ⟨h1, h2⟩
            have := h2 0 (Nat.succ_pos _)
            simp [List.getD] at this
      | false =>
        cases i with
        | zero => simp [update_run, update_cycle, List.getD]
        | succ i' =>
          have hL : (SchedEvent.setReady ∈
              ((update_run false (false :: rest)).2).getD (i' + 1) [])
              ↔ SchedEvent.setReady ∈ ((update_run false rest).2).getD i' [] := by
            simp [update_run, update_cycle, List.getD]
          rw [hL, ih i']
          constructor
          · rintro ⟨h1, h2⟩
            refine ⟨by simpa [List.getD] using h1, ?_⟩
            intro j hj
            cases j with
            | zero => simp [List.getD]
            | succ j' =>
              have := h2 j' (Nat.lt_of_succ_lt_succ hj)
              simpa [List.getD] using this
          · rintro ⟨h1, h2⟩
            refine ⟨by simpa [List.getD] using h1, ?_⟩
            intro j hj
            have := h2 (j + 1) (Nat.succ_lt_succ hj)
            simpa [List.getD] using this

/-- **C2** (witness): with outcomes `[fail, ok, ok]` the signal fires in
cycle 1 (0-based) and in no other cycle. -/
theorem ready_signal_exactly_once_witness :
    SchedEvent.setReady ∈ ((update_run false [false, true, true]).2.getD 1 []) ∧
    ¬ SchedEvent.setReady ∈ ((update_run false [false, true, true]).2.getD 2 []) :=
  ⟨((ready_signal_exactly_once [false, true, true]).2.2 1).mpr (by decide),
   fun h => by
    have := ((ready_signal_exactly_once [false, true, true]).2.2 2).mp h
    revert this
    decide⟩

/-! ## C6: the currency sum is batch-size independent -/

theorem sumBatchGo_eq (b : ℕ) (hb : 0 < b) :
    ∀ fuel (l : List (ℕ × CurAcct)) (acc : Int), l.length ≤ fuel →
      sumBatchGo b fuel l acc = acc + (l.map (fun a => a.2.balance)).sum := by
  intro fuel
  induction fuel with
  | zero =>
    intro l acc h
    cases l with
    | nil => simp [sumBatchGo]
    | cons x xs => simp at h
  | succ f ih =>
    intro l acc h
    cases l with
    | nil => simp [sumBatchGo]
    | cons x xs =>
      have hlen : ((x :: xs).drop b).length ≤ f := by
        rw [List.length_drop]
        simp only [List.length_cons] at h ⊢
        omega
      have hsplit : (((x :: xs).take b).map (fun a => a.2.balance)).sum
          + (((x :: xs).drop b).map (fun a => a.2.balance)).sum
          = ((x :: xs).map (fun a => a.2.balance)).sum := by
        rw [← List.sum_append, ← List.map_append, List.take_append_drop]
      simp only [sumBatchGo]
      rw [ih ((x :: xs).drop b) _ hlen, ← hsplit]
      ring

/-- **C6**.  For every positive batch size and every list of balance
records, `write_currency_data` publishes `"Currency In Circulation"` equal
to the plain arithmetic sum of all balances. -/
theorem currency_in_circulation_sum (b : ℕ) (hb : 0 < b)
    (accounts : List (ℕ × CurAcct)) (st : StatsNS) :
    ∃ s, write_currency_data b (Except.ok accounts) st = Except.ok s ∧
      s.currency "Currency In Circulation"
        = some (((accounts.map (fun a => a.2.balance)).sum : Int) : Rat) := by
  have hsum : sumBalancesBatched b accounts
      = (accounts.map (fun a => a.2.balance)).sum := by
    rw [sumBalancesBatched, sumBatchGo_eq b hb accounts.length accounts 0 (le_refl _)]
    simp
  refine ⟨_, rfl, ?_⟩
  show (writeAll st.currency
      (dset [] "Currency In Circulation" ((sumBalancesBatched b accounts : Int) : Rat)))
      "Currency In Circulation" = _
  rw [hsum]
  simp [writeAll, dset, fset]

/-- **C6** (witness). -/
theorem currency_in_circulation_sum_witness :
    0 < 2 ∧ ∃ s, write_currency_data 2
        (Except.ok [(1, ⟨5⟩), (2, ⟨7⟩), (3, ⟨-2⟩)]) initStats = Except.ok s ∧
      s.currency "Currency In Circulation" = some ((10 : Int) : Rat) := by
  refine ⟨by decide, ?_⟩
  have h := currency_in_circulation_sum 2 (by decide)
    [(1, ⟨5⟩), (2, ⟨7⟩), (3, ⟨-2⟩)] initStats
  simpa using h

/-! ## C5: inactive music players -/

/-- **C5**.  With light mode off and no MartTools cog, for every player
registry the audio collector publishes
`Inactive Music Players = Music Players − Active Music Players`, where the
active players are the playing subset of the registry, and the published
value is never negative. -/
theorem audio_inactive_players (detailed : Bool) (players : List Player)
    (st : StatsNS) :
    ∃ s, write_audio_data false detailed players none st = Except.ok s ∧
      ∃ q, s.audio "Inactive Music Players" = some q ∧
        q = ((players.length : Rat))
          - (((players.filter (fun p => p.is_playing)).length : Rat)) ∧
        0 ≤ q := by
  have hle : (players.filter (fun p => p.is_playing)).length ≤ players.length :=
    List.length_filter_le _ _
  have hcast : (((players.length : Int)
      - ((players.filter (fun p => p.is_playing)).length : Int) : Int) : Rat)
      = ((players.length : Rat))
        - (((players.filter (fun p => p.is_playing)).length : Rat)) := by
    push_cast
    ring
  have hpos : (0 : Rat) ≤ (((players.length : Int)
      - ((players.filter (fun p => p.is_playing)).length : Int) : Int) : Rat) := by
    have h1 : (0 : Int) ≤ (players.length : Int)
        - ((players.filter (fun p => p.is_playing)).length : Int) := by
      omega
    exact_mod_cast h1
  cases detailed
  all_goals
    refine ⟨_, rfl, _, ?_, hcast, hpos⟩
  all_goals
    show (fset (fset (fset st.audio "Active Music Players"
        (((players.filter (fun p => p.is_playing)).length : Int) : Rat))
        "Music Players" ((players.length : Int) : Rat))
        "Inactive Music Players"
        (((players.length : Int)
          - ((players.filter (fun p => p.is_playing)).length : Int) : Int) : Rat))
        "Inactive Music Players" = _
  all_goals exact fset_self _ _ _

/-! ## C4: adventure win/loss percentages -/

theorem foldl_preserves {σ β : Type} (P : σ → Prop) (f : σ → β → σ)
    (hf : ∀ s x, P s → P (f s x)) :
    ∀ (l : List β) (s : σ), P s → P (l.foldl f s) := by
  intro l
  induction l with
  | nil => intro s hs; exact hs
  | cons x xs ih => intro s hs; exact ih _ (hf s x hs)

theorem nodup_keys_dincr (d : List (κ × Rat)) (k : κ) (v : Rat)
    (h : (keys d).Nodup) : (keys (dincr d k v)).Nodup :=
  nodup_keys_dset _ _ _ h

theorem tallyAdventure_nodup_keys (accs : List (ℕ × List (String × Int))) :
    (keys (tallyAdventure accs)).Nodup := by
  refine foldl_preserves (fun c => (keys c).Nodup) _ ?_ accs [] (by simp [keys])
  intro c kv hc
  repeat apply nodup_keys_dincr
  exact hc

theorem publishAdventure_eq (adv : Category) (w l : Rat)
    (hw : adv "Wins" = some w) (hl : adv "Losses" = some l) :
    publishAdventure adv = Except.ok
      (fset (fset (fset adv "Adventures" (w + l))
        "Win Percentage" ((if w + l ≠ 0 then w / (w + l) else 0) * 100))
        "Loss Percentage" ((if w + l ≠ 0 then l / (w + l) else 0) * 100)) := by
  simp only [publishAdventure, hw, hl]
  rfl

/-- **C4**.  With the Adventure cog loaded and light mode off, for every
list of raw user records the collector publishes
`Adventures = Wins + Losses`, and the two percentages sum to exactly 100
whenever the published total is nonzero (in particular whenever it is
positive) and are both 0 when the total is 0. -/
theorem adventure_percentages (raw : List (ℕ × AdvRaw)) (st : StatsNS) :
    ∃ s, write_adventure_data (some (Except.ok raw)) false st = Except.ok s ∧
    ∃ w l wp lp : Rat,
      s.adventure "Wins" = some w ∧
      s.adventure "Losses" = some l ∧
      s.adventure "Adventures" = some (w + l) ∧
      s.adventure "Win Percentage" = some wp ∧
      s.adventure "Loss Percentage" = some lp ∧
      ((0 < w + l ∧ wp + lp = 100) ∨ (w + l = 0 ∧ wp = 0 ∧ lp = 0)
        ∨ (w + l < 0 ∧ wp + lp = 100)) := by
  have hnd : (keys (tallyAdventure (buildAccountsNew raw))).Nodup :=
    tallyAdventure_nodup_keys _
  set C := tallyAdventure (buildAccountsNew raw) with hC
  set adv0 := writeAll (fset (fset st.adventure "Wins" 0) "Losses" 0) C with hadv0
  have hW : ∃ w, adv0 "Wins" = some w := by
    rw [hadv0, writeAll_get _ _ _ hnd]
    cases h : dget? C "Wins" with
    | some v => exact ⟨v, rfl⟩
    | none =>
      refine ⟨0, ?_⟩
      show (fset (fset st.adventure "Wins" 0) "Losses" 0) "Wins" = some 0
      rw [fset_ne _ _ _ _ (by decide), fset_self]
  have hL : ∃ l, adv0 "Losses" = some l := by
    rw [hadv0, writeAll_get _ _ _ hnd]
    cases h : dget? C "Losses" with
    | some v => exact ⟨v, rfl⟩
    | none =>
      refine ⟨0, ?_⟩
      show (fset (fset st.adventure "Wins" 0) "Losses" 0) "Losses" = some 0
      rw [fset_self]
  obtain ⟨w, hw⟩ := hW
  obtain ⟨l, hl⟩ := hL
  have hpub := publishAdventure_eq adv0 w l hw hl
  set advF := fset (fset (fset adv0 "Adventures" (w + l))
      "Win Percentage" ((if w + l ≠ 0 then w / (w + l) else 0) * 100))
      "Loss Percentage" ((if w + l ≠ 0 then l / (w + l) else 0) * 100) with hadvF
  have hrun : write_adventure_data (some (Except.ok raw)) false st
      = Except.ok { st with adventure := advF } := by
    calc write_adventure_data (some (Except.ok raw)) false st
        = tryLog st (Except.bind (publishAdventure adv0)
            (fun adv2 => Except.ok { st with adventure := adv2 })) := rfl
      _ = _ := by rw [hpub]; rfl
  refine ⟨_, hrun, w, l,
    (if w + l ≠ 0 then w / (w + l) else 0) * 100,
    (if w + l ≠ 0 then l / (w + l) else 0) * 100,
    ?_, ?_, ?_, ?_, ?_, ?_⟩
  · show advF "Wins" = some w
    rw [hadvF]
    simp [fset, hw]
  · show advF "Losses" = some l
    rw [hadvF]
    simp [fset, hl]
  · show advF "Adventures" = some (w + l)
    rw [hadvF]
    simp [fset]
  · show advF "Win Percentage" = some ((if w + l ≠ 0 then w / (w + l) else 0) * 100)
    rw [hadvF]
    simp [fset]
  · show advF "Loss Percentage" = some ((if w + l ≠ 0 then l / (w + l) else 0) * 100)
    rw [hadvF]
    simp [fset]
  · rcases lt_trichotomy (w + l) 0 with ht | ht | ht
    · refine Or.inr (Or.inr ⟨ht, ?_⟩)
      have hne : w + l ≠ 0 := ne_of_lt ht
      simp only [if_pos hne]
      have hsum : w / (w + l) * 100 + l / (w + l) * 100
          = (w + l) / (w + l) * 100 := by ring
      rw [hsum, div_self hne, one_mul]
    · refine Or.inr (Or.inl ⟨ht, ?_, ?_⟩) <;> rw [if_neg (by simpa using ht)] <;> ring
    · refine Or.inl ⟨ht, ?_⟩
      have hne : w + l ≠ 0 := ne_of_gt ht
      simp only [if_pos hne]
      have hsum : w / (w + l) * 100 + l / (w + l) * 100
          = (w + l) / (w + l) * 100 := by ring
      rw [hsum, div_self hne, one_mul]

/-! ## Further dictionary lemmas -/

theorem dgetD_dincr_self (d : List (κ × Rat)) (k : κ) (v : Rat) :
    dgetD (dincr d k v) k 0 = dgetD d k 0 + v := by
  simp [dincr, dgetD, dget?_dset_self]

theorem dgetD_dincr_ne (d : List (κ × Rat)) (k k' : κ) (v : Rat) (h : k' ≠ k) :
    dgetD (dincr d k v) k' 0 = dgetD d k' 0 := by
  simp [dincr, dgetD, dget?_dset_ne _ _ _ _ h]

theorem dgetD_dinsertTally_self (d : List (κ × Finset ℕ)) (k : κ) (x : ℕ) :
    dgetD (dinsertTally d k x) k ∅ = insert x (dgetD d k ∅) := by
  simp [dinsertTally, dgetD, dget?_dset_self]

theorem dgetD_dinsertTally_ne (d : List (κ × Finset ℕ)) (k k' : κ) (x : ℕ)
    (h : k' ≠ k) :
    dgetD (dinsertTally d k x) k' ∅ = dgetD d k' ∅ := by
  simp [dinsertTally, dgetD, dget?_dset_ne _ _ _ _ h]

/-! ## C9: the activity loop classifies every activity, not only the first 5 -/

theorem processActivity_gaming (m : Member) (acc : List (String × Finset ℕ) × Bool)
    (a : ActivityType) :
    m.id ∈ dgetD (processActivity m acc a).1 "Users Gaming" ∅
      ↔ (a = ActivityType.playing ∨ m.id ∈ dgetD acc.1 "Users Gaming" ∅) := by
  obtain ⟨td, streaming⟩ := acc
  cases a <;> cases hb : m.bot <;>
    simp [processActivity, addUBH, hb, dgetD_dinsertTally_self, dgetD_dinsertTally_ne]

/-- **C9** (amended).  The activity classification loop
(`AsyncIter(member.activities, steps=5, delay=0.01)`) iterates over every
activity of the member — `steps=5` only yields control every 5 items.  In
particular the member lands in the `"Users Gaming"` bucket iff any of its
activities (at any index, also beyond the first 5) has the `playing`
type. -/
theorem all_activities_classified (m : Member) (td : List (String × Finset ℕ)) :
    m.id ∈ dgetD (processActivities m td).1 "Users Gaming" ∅
      ↔ (ActivityType.playing ∈ m.activities
        ∨ m.id ∈ dgetD td "Users Gaming" ∅) := by
  suffices h : ∀ (acts : List ActivityType) (acc : List (String × Finset ℕ) × Bool),
      (m.id ∈ dgetD (acts.foldl (processActivity m) acc).1 "Users Gaming" ∅
        ↔ (ActivityType.playing ∈ acts ∨ m.id ∈ dgetD acc.1 "Users Gaming" ∅)) by
    exact h m.activities (td, false)
  intro acts
  induction acts with
  | nil => intro acc; simp
  | cons a rest ih =>
    intro acc
    rw [List.foldl_cons, ih (processActivity m acc a), processActivity_gaming]
    simp only [List.mem_cons]
    tauto

/-- A member with five custom-status activities followed by one gaming
activity in sixth position. -/
def cMemberSixAct : Member :=
  { id := 7, bot := false, on_mobile := false,
    activities := [ActivityType.custom, ActivityType.custom, ActivityType.custom,
      ActivityType.custom, ActivityType.custom, ActivityType.playing],
    status := PyStatus.online, mobile_status := PyStatus.offline,
    desktop_status := PyStatus.offline, web_status := PyStatus.offline }

/-- The same member truncated to its first five activities. -/
def cMemberFiveAct : Member :=
  { cMemberSixAct with activities := [ActivityType.custom, ActivityType.custom,
      ActivityType.custom, ActivityType.custom, ActivityType.custom] }

/-- A one-guild bot input holding the given member. -/
def cGuildOf (m : Member) : Guild :=
  { id := 1, unavailable := false, member_count := 1, features := [],
    verification_level := "none", roles := [], large := false, chunked := true,
    premium_tier := 0, channels := [], emojis := [], members := [m] }

/-- Bot input with a single guild containing the given member. -/
def cBotOf (m : Member) : BotInput :=
  { guilds := [cGuildOf m], shard_count := 1, latency_ms? := some 1, me_id := 99,
    api_key := "", vote_outcome := ReqOutcome.timeout }

/-- **C9** (counterexample).  In detailed mode, dropping a member's sixth
activity changes the published `"Users Gaming"` bucket: with the sixth
(playing) activity present the collector publishes `Users Gaming = 1`,
with only the first five (custom) activities the label is absent — so
activities beyond the first 5 do affect the buckets, contradicting the
claim. -/
theorem sixth_activity_affects_buckets :
    ((write_bot_data (cBotOf cMemberSixAct) false true false initStats).map
        (fun s => s.bot "Users Gaming") = Except.ok (some 1)) ∧
    ((write_bot_data (cBotOf cMemberFiveAct) false true false initStats).map
        (fun s => s.bot "Users Gaming") = Except.ok none) := by
  constructor <;> rfl

/-! ## C7 machinery: tracking `"Unique Users"` through the guild pass -/

theorem mem_keys_dincr (d : List (String × Rat)) (k k' : String) (v : Rat)
    (h : k' ∈ keys (dincr d k v)) : k' = k ∨ k' ∈ keys d :=
  mem_keys_dset _ _ _ _ h

theorem mem_keys_dinsertTally (d : List (String × Finset ℕ)) (k k' : String)
    (x : ℕ) (h : k' ∈ keys (dinsertTally d k x)) : k' = k ∨ k' ∈ keys d :=
  mem_keys_dset _ _ _ _ h

theorem nodup_keys_dinsertTally (d : List (String × Finset ℕ)) (k : String)
    (x : ℕ) (h : (keys d).Nodup) : (keys (dinsertTally d k x)).Nodup :=
  nodup_keys_dset _ _ _ h

theorem processActivity_uu (m : Member) (acc : List (String × Finset ℕ) × Bool)
    (a : ActivityType) :
    dgetD (processActivity m acc a).1 "Unique Users" ∅
      = dgetD acc.1 "Unique Users" ∅ := by
  obtain ⟨td, streaming⟩ := acc
  cases a <;> cases hb : m.bot <;>
    simp [processActivity, addUBH, hb, dgetD_dinsertTally_ne]

theorem processActivities_uu (m : Member) (td : List (String × Finset ℕ)) :
    dgetD (processActivities m td).1 "Unique Users" ∅
      = dgetD td "Unique Users" ∅ := by
  rw [processActivities]
  have h : ∀ (acts : List ActivityType) (acc : List (String × Finset ℕ) × Bool),
      dgetD (acts.foldl (processActivity m) acc).1 "Unique Users" ∅
        = dgetD acc.1 "Unique Users" ∅ := by
    intro acts
    induction acts with
    | nil => intro acc; rfl
    | cons a rest ih => intro acc; rw [List.foldl_cons, ih, processActivity_uu]
  exact h _ _

theorem processStatus_uu (m : Member) (td : List (String × Finset ℕ)) :
    dgetD (processStatus m td) "Unique Users" ∅ = dgetD td "Unique Users" ∅ := by
  cases hs : m.status <;> cases hb : m.bot <;>
    simp [processStatus, addUBH, hs, hb, dgetD_dinsertTally_ne]

theorem dgetD_platformTally_ne (s : PyStatus) (k1 k2 k3 k4 : String)
    (td : List (String × Finset ℕ)) (mid : ℕ) (k : String)
    (h1 : k ≠ k1) (h2 : k ≠ k2) (h3 : k ≠ k3) (h4 : k ≠ k4) :
    dgetD (platformTally s k1 k2 k3 k4 td mid) k ∅ = dgetD td k ∅ := by
  cases s <;>
    simp [platformTally, dgetD_dinsertTally_ne _ _ _ _ h1,
      dgetD_dinsertTally_ne _ _ _ _ h2, dgetD_dinsertTally_ne _ _ _ _ h3,
      dgetD_dinsertTally_ne _ _ _ _ h4]

theorem processPlatform_uu (m : Member) (td : List (String × Finset ℕ)) :
    dgetD (processPlatform m td) "Unique Users" ∅ = dgetD td "Unique Users" ∅ := by
  rw [processPlatform]
  rw [dgetD_platformTally_ne _ _ _ _ _ _ _ _
      (by decide) (by decide) (by decide) (by decide),
    dgetD_platformTally_ne _ _ _ _ _ _ _ _
      (by decide) (by decide) (by decide) (by decide),
    dgetD_platformTally_ne _ _ _ _ _ _ _ _
      (by decide) (by decide) (by decide) (by decide)]

theorem processMember_uu (dt : Bool) (m : Member) (td : List (String × Finset ℕ)) :
    dgetD (processMember dt m td) "Unique Users" ∅
      = insert m.id (dgetD td "Unique Users" ∅) := by
  have key : ∀ td' : List (String × Finset ℕ),
      dgetD (processPlatform m (if (processActivities m td').2 = false
        then processStatus m (processActivities m td').1
        else (processActivities m td').1)) "Unique Users" ∅
      = dgetD td' "Unique Users" ∅ := by
    intro td'
    rw [processPlatform_uu]
    by_cases hs : (processActivities m td').2 = false
    · rw [if_pos hs, processStatus_uu, processActivities_uu]
    · rw [if_neg hs, processActivities_uu]
  cases dt with
  | false =>
    cases hb : m.bot <;>
      simp [processMember, hb, dgetD_dinsertTally_self, dgetD_dinsertTally_ne]
  | true =>
    cases hb : m.bot <;> cases hm : m.on_mobile <;>
      simp [processMember, hb, hm, key, dgetD_dinsertTally_self,
        dgetD_dinsertTally_ne]

theorem vc_mobile_fold_uu (mems : List Member) (ps : PassState) :
    dgetD ((mems.foldl (fun ps m => if m.on_mobile then
      { ps with temp_data := dinsertTally ps.temp_data "Users in a VC on Mobile" m.id }
      else ps) ps)).temp_data "Unique Users" ∅
      = dgetD ps.temp_data "Unique Users" ∅ := by
  induction mems generalizing ps with
  | nil => rfl
  | cons m rest ih =>
    rw [List.foldl_cons, ih]
    cases hm : m.on_mobile <;> simp [hm, dgetD_dinsertTally_ne]

theorem processChannel_uu (me : ℕ) (ps : PassState) (ch : Channel) :
    dgetD (processChannel me ps ch).temp_data "Unique Users" ∅
      = dgetD ps.temp_data "Unique Users" ∅ := by
  cases ch with
  | text cid nsfw news =>
    cases nsfw <;> cases news <;> simp [processChannel, dgetD_dinsertTally_ne]
  | voice cid mems =>
    cases hme : mems.any (fun m => m.id = me) <;>
      simp [processChannel, hme, vc_mobile_fold_uu, dgetD_dinsertTally_ne]
  | category cid => simp [processChannel]
  | other cid => simp [processChannel]

theorem channels_fold_uu (me : ℕ) (chs : List Channel) (ps : PassState) :
    dgetD ((chs.foldl (processChannel me) ps)).temp_data "Unique Users" ∅
      = dgetD ps.temp_data "Unique Users" ∅ := by
  induction chs generalizing ps with
  | nil => rfl
  | cons c rest ih => rw [List.foldl_cons, ih, processChannel_uu]

theorem members_fold_uu_card (dt : Bool) (ms : List Member)
    (td : List (String × Finset ℕ)) :
    (dgetD (ms.foldl (fun td m => processMember dt m td) td) "Unique Users" ∅).card
      ≤ (dgetD td "Unique Users" ∅).card + ms.length := by
  induction ms generalizing td with
  | nil => simp
  | cons m rest ih =>
    rw [List.foldl_cons]
    refine le_trans (ih _) ?_
    rw [processMember_uu]
    have hin := Finset.card_insert_le m.id (dgetD td "Unique Users" ∅)
    simp only [List.length_cons]
    omega

theorem guildHeavySection_temp_uu (dt : Bool) (me : ℕ) (g : Guild)
    (ps : PassState) :
    dgetD (guildHeavySection dt me g ps).temp_data "Unique Users" ∅
      = dgetD ps.temp_data "Unique Users" ∅ := by
  cases dt <;> simp [guildHeavySection, channels_fold_uu]

theorem processGuild_uu_unavail (lm dt : Bool) (me : ℕ) (ps : PassState)
    (g : Guild) (hu : g.unavailable = true) :
    (processGuild lm dt me ps g).temp_data = ps.temp_data := by
  simp [processGuild, hu]

theorem processGuild_uu_card_avail (lm dt : Bool) (me : ℕ) (ps : PassState)
    (g : Guild) (hu : g.unavailable = false) :
    (dgetD (processGuild lm dt me ps g).temp_data "Unique Users" ∅).card
      ≤ (dgetD ps.temp_data "Unique Users" ∅).card + g.members.length := by
  cases lm with
  | true =>
    have h := members_fold_uu_card dt g.members ps.temp_data
    simpa [processGuild, hu] using h
  | false =>
    have hle := members_fold_uu_card dt g.members
      ((guildHeavySection dt me g
        { ps with server_counter := dincr ps.server_counter "Members" ((g.member_count : Rat)) }).temp_data)
    rw [guildHeavySection_temp_uu] at hle
    simpa [processGuild, hu] using hle

theorem guilds_fold_uu_card (lm dt : Bool) (me : ℕ) (gs : List Guild)
    (ps : PassState) :
    (dgetD (gs.foldl (processGuild lm dt me) ps).temp_data "Unique Users" ∅).card
      ≤ (dgetD ps.temp_data "Unique Users" ∅).card
        + ((gs.filter (fun g => !g.unavailable)).map
            (fun g => g.members.length)).sum := by
  induction gs generalizing ps with
  | nil => simp
  | cons g rest ih =>
    rw [List.foldl_cons]
    refine le_trans (ih _) ?_
    cases hu : g.unavailable with
    | true =>
      rw [processGuild_uu_unavail lm dt me ps g hu]
      simp [List.filter_cons, hu]
    | false =>
      have hg := processGuild_uu_card_avail lm dt me ps g hu
      simp only [List.filter_cons, hu, Bool.not_false, if_pos, List.map_cons,
        List.sum_cons]
      omega

/-! ## C7 machinery: the `"Members"` counter through the guild pass -/

theorem vc_mobile_fold_server (mems : List Member) (ps : PassState) :
    ((mems.foldl (fun ps m => if m.on_mobile then
      { ps with temp_data := dinsertTally ps.temp_data "Users in a VC on Mobile" m.id }
      else ps) ps)).server_counter = ps.server_counter := by
  induction mems generalizing ps with
  | nil => rfl
  | cons m rest ih =>
    rw [List.foldl_cons, ih]
    cases hm : m.on_mobile <;> simp [hm]

theorem vc_mobile_fold_counter (mems : List Member) (ps : PassState) :
    ((mems.foldl (fun ps m => if m.on_mobile then
      { ps with temp_data := dinsertTally ps.temp_data "Users in a VC on Mobile" m.id }
      else ps) ps)).counter = ps.counter := by
  induction mems generalizing ps with
  | nil => rfl
  | cons m rest ih =>
    rw [List.foldl_cons, ih]
    cases hm : m.on_mobile <;> simp [hm]

theorem processChannel_members (me : ℕ) (ps : PassState) (ch : Channel) :
    dgetD (processChannel me ps ch).server_counter "Members" 0
      = dgetD ps.server_counter "Members" 0 := by
  cases ch with
  | text cid nsfw news =>
    cases nsfw <;> cases news <;> simp [processChannel, dgetD_dincr_ne]
  | voice cid mems =>
    cases hme : mems.any (fun m => m.id = me) <;>
      simp [processChannel, hme, vc_mobile_fold_server, dgetD_dincr_ne]
  | category cid => simp [processChannel, dgetD_dincr_ne]
  | other cid => simp [processChannel, dgetD_dincr_ne]

theorem channels_fold_members (me : ℕ) (chs : List Channel) (ps : PassState) :
    dgetD ((chs.foldl (processChannel me) ps)).server_counter "Members" 0
      = dgetD ps.server_counter "Members" 0 := by
  induction chs generalizing ps with
  | nil => rfl
  | cons c rest ih => rw [List.foldl_cons, ih, processChannel_members]

theorem processEmoji_members (sc : List (String × Rat)) (e : Emoji) :
    dgetD (processEmoji sc e) "Members" 0 = dgetD sc "Members" 0 := by
  cases ha : e.animated <;> simp [processEmoji, ha, dgetD_dincr_ne]

theorem emojis_fold_members (es : List Emoji) (sc : List (String × Rat)) :
    dgetD (es.foldl processEmoji sc) "Members" 0 = dgetD sc "Members" 0 := by
  induction es generalizing sc with
  | nil => rfl
  | cons e rest ih => rw [List.foldl_cons, ih, processEmoji_members]

theorem guildHeavySection_members (dt : Bool) (me : ℕ) (g : Guild)
    (ps : PassState) :
    dgetD (guildHeavySection dt me g ps).server_counter "Members" 0
      = dgetD ps.server_counter "Members" 0 := by
  cases dt <;>
    simp [guildHeavySection, emojis_fold_members, channels_fold_members,
      dgetD_dincr_ne]

theorem processGuild_server_unavail (lm dt : Bool) (me : ℕ) (ps : PassState)
    (g : Guild) (hu : g.unavailable = true) :
    (processGuild lm dt me ps g).server_counter = ps.server_counter := by
  simp [processGuild, hu]

theorem processGuild_members_avail (lm dt : Bool) (me : ℕ) (ps : PassState)
    (g : Guild) (hu : g.unavailable = false) :
    dgetD (processGuild lm dt me ps g).server_counter "Members" 0
      = dgetD ps.server_counter "Members" 0 + ((g.member_count : Rat)) := by
  cases lm with
  | true => simp [processGuild, hu, dgetD_dincr_self]
  | false =>
    have h := guildHeavySection_members dt me g
      { ps with server_counter := dincr ps.server_counter "Members" ((g.member_count : Rat)) }
    simpa [processGuild, hu, dgetD_dincr_self] using h

theorem guilds_fold_members (lm dt : Bool) (me : ℕ) (gs : List Guild)
    (ps : PassState) :
    dgetD (gs.foldl (processGuild lm dt me) ps).server_counter "Members" 0
      = dgetD ps.server_counter "Members" 0
        + ((gs.filter (fun g => !g.unavailable)).map
            (fun g => ((g.member_count : Rat)))).sum := by
  induction gs generalizing ps with
  | nil => simp
  | cons g rest ih =>
    rw [List.foldl_cons, ih]
    cases hu : g.unavailable with
    | true =>
      rw [processGuild_server_unavail lm dt me ps g hu]
      simp [List.filter_cons, hu]
    | false =>
      rw [processGuild_members_avail lm dt me ps g hu]
      simp only [List.filter_cons, hu, Bool.not_false, if_pos, List.map_cons,
        List.sum_cons]
      ring

/-! ## C7 machinery: key-set invariants of the guild pass -/

/-- The keys the bot-level `Counter` can acquire outside the tally flatten. -/
def cKeys : List String := ["Monthly Votes", "Votes", "Discord Latency", "Shards",
  "Users in a VC", "Users in a VC with me"]

/-- The keys `server_temp_data` can acquire. -/
def stKeys : List String := ["Unavailable", "Large", "Unchunked", "Nitro Boosted",
  "Tier 1 Nitro", "Tier 2 Nitro", "Tier 3 Nitro"]

/-- Structural invariant of the per-pass working counters: the two
`Counter`s and the member tally have pairwise-distinct keys (they are
Python dicts), the bot-level counter only ever holds keys from `cKeys`,
and the guild set-tally only holds keys from `stKeys`. -/
def PassInv (ps : PassState) : Prop :=
  (keys ps.counter).Nodup ∧ (keys ps.server_counter).Nodup ∧
  (keys ps.temp_data).Nodup ∧
  (∀ k ∈ keys ps.counter, k ∈ cKeys) ∧
  (∀ k ∈ keys ps.server_temp_data, k ∈ stKeys)

theorem cKeys_dincr (d : List (String × Rat)) (k : String) (v : Rat)
    (hsub : ∀ k' ∈ keys d, k' ∈ cKeys) (hk : k ∈ cKeys) :
    ∀ k' ∈ keys (dincr d k v), k' ∈ cKeys := by
  intro k' hk'
  rcases mem_keys_dincr _ _ _ _ hk' with rfl | hh
  · exact hk
  · exact hsub _ hh

theorem stKeys_dinsertTally (d : List (String × Finset ℕ)) (k : String) (x : ℕ)
    (hsub : ∀ k' ∈ keys d, k' ∈ stKeys) (hk : k ∈ stKeys) :
    ∀ k' ∈ keys (dinsertTally d k x), k' ∈ stKeys := by
  intro k' hk'
  rcases mem_keys_dinsertTally _ _ _ _ hk' with rfl | hh
  · exact hk
  · exact hsub _ hh

theorem nodup_keys_addUBH (td : List (String × Finset ℕ)) (m : Member)
    (u b h : String) (hnd : (keys td).Nodup) : (keys (addUBH td m u b h)).Nodup := by
  unfold addUBH
  split <;> exact nodup_keys_dinsertTally _ _ _ (nodup_keys_dinsertTally _ _ _ hnd)

theorem nodup_keys_platformTally (s : PyStatus) (k1 k2 k3 k4 : String)
    (td : List (String × Finset ℕ)) (mid : ℕ) (hnd : (keys td).Nodup) :
    (keys (platformTally s k1 k2 k3 k4 td mid)).Nodup := by
  unfold platformTally
  repeat' split
  all_goals first
    | exact nodup_keys_dinsertTally _ _ _ hnd
    | exact hnd

theorem nodup_keys_processStatus (m : Member) (td : List (String × Finset ℕ))
    (hnd : (keys td).Nodup) : (keys (processStatus m td)).Nodup := by
  unfold processStatus
  repeat' split
  all_goals first
    | exact nodup_keys_addUBH _ _ _ _ _ (nodup_keys_addUBH _ _ _ _ _ hnd)
    | exact nodup_keys_addUBH _ _ _ _ _ hnd
    | exact hnd

theorem nodup_keys_processActivity (m : Member)
    (acc : List (String × Finset ℕ) × Bool) (a : ActivityType)
    (hnd : (keys acc.1).Nodup) : (keys (processActivity m acc a).1).Nodup := by
  obtain ⟨td, stf⟩ := acc
  unfold processActivity
  repeat' split
  all_goals
    repeat first
      | exact hnd
      | apply nodup_keys_addUBH

theorem nodup_keys_processActivities (m : Member)
    (td : List (String × Finset ℕ)) (hnd : (keys td).Nodup) :
    (keys (processActivities m td).1).Nodup := by
  rw [processActivities]
  have h : ∀ (acts : List ActivityType) (acc : List (String × Finset ℕ) × Bool),
      (keys acc.1).Nodup → (keys (acts.foldl (processActivity m) acc).1).Nodup := by
    intro acts
    induction acts with
    | nil => intro acc hacc; exact hacc
    | cons a rest ih =>
      intro acc hacc
      rw [List.foldl_cons]
      exact ih _ (nodup_keys_processActivity m acc a hacc)
  exact h _ _ hnd

theorem nodup_keys_processPlatform (m : Member) (td : List (String × Finset ℕ))
    (hnd : (keys td).Nodup) : (keys (processPlatform m td)).Nodup := by
  unfold processPlatform
  apply nodup_keys_platformTally
  apply nodup_keys_platformTally
  apply nodup_keys_platformTally
  exact hnd

theorem nodup_keys_processMember (dt : Bool) (m : Member)
    (td : List (String × Finset ℕ)) (hnd : (keys td).Nodup) :
    (keys (processMember dt m td)).Nodup := by
  cases dt with
  | false =>
    cases hb : m.bot <;>
      (simp only [processMember, hb]
       repeat first
         | exact hnd
         | apply nodup_keys_dinsertTally
         | simp)
  | true =>
    cases hb : m.bot <;> cases hm : m.on_mobile <;>
      (simp only [processMember, hb, hm]
       simp only [Bool.false_eq_true, if_false, if_true]
       apply nodup_keys_processPlatform
       split
       · apply nodup_keys_processStatus
         apply nodup_keys_processActivities
         repeat first
           | exact hnd
           | apply nodup_keys_dinsertTally
       · apply nodup_keys_processActivities
         repeat first
           | exact hnd
           | apply nodup_keys_dinsertTally)

theorem vc_mobile_fold_temp_nodup (mems : List Member) (ps : PassState)
    (hnd : (keys ps.temp_data).Nodup) :
    (keys ((mems.foldl (fun ps m => if m.on_mobile then
      { ps with temp_data := dinsertTally ps.temp_data "Users in a VC on Mobile" m.id }
      else ps) ps)).temp_data).Nodup := by
  induction mems generalizing ps with
  | nil => exact hnd
  | cons m rest ih =>
    rw [List.foldl_cons]
    cases hm : m.on_mobile with
    | false =>
      simp only [Bool.false_eq_true, if_false, eq_self_iff_true, if_true]
      exact ih ps hnd
    | true =>
      simp only [Bool.false_eq_true, if_false, eq_self_iff_true, if_true]
      exact ih _ (nodup_keys_dinsertTally _ _ _ hnd)

theorem vc_mobile_fold_inv (mems : List Member) (ps : PassState)
    (h : PassInv ps) :
    PassInv ((mems.foldl (fun ps m => if m.on_mobile then
      { ps with temp_data := dinsertTally ps.temp_data "Users in a VC on Mobile" m.id }
      else ps) ps)) := by
  induction mems generalizing ps with
  | nil => exact h
  | cons m rest ih =>
    rw [List.foldl_cons]
    obtain ⟨p1, p2, p3, p4, p5⟩ := h
    cases hm : m.on_mobile with
    | false =>
      simp only [Bool.false_eq_true, if_false, eq_self_iff_true, if_true]
      exact ih ps ⟨p1, p2, p3, p4, p5⟩
    | true =>
      simp only [Bool.false_eq_true, if_false, eq_self_iff_true, if_true]
      exact ih _ ⟨p1, p2, nodup_keys_dinsertTally _ _ _ p3, p4, p5⟩

theorem processChannel_inv (me : ℕ) (ps : PassState) (ch : Channel)
    (h : PassInv ps) : PassInv (processChannel me ps ch) := by
  obtain ⟨h1, h2, h3, h4, h5⟩ := h
  cases ch with
  | text cid nsfw news =>
    cases nsfw <;> cases news <;>
      exact ⟨h1, nodup_keys_dincr _ _ _ (nodup_keys_dincr _ _ _ h2),
        by first
          | exact h3
          | exact nodup_keys_dinsertTally _ _ _ h3
          | exact nodup_keys_dinsertTally _ _ _ (nodup_keys_dinsertTally _ _ _ h3),
        h4, h5⟩
  | voice cid mems =>
    simp only [processChannel]
    cases hme : mems.any (fun m => m.id = me) with
    | false =>
      simp only [hme, Bool.false_eq_true, if_false]
      exact ⟨nodup_keys_dincr _ _ _ h1,
        nodup_keys_dincr _ _ _ (nodup_keys_dincr _ _ _ h2), h3,
        cKeys_dincr _ _ _ h4 (by decide), h5⟩
    | true =>
      simp only [hme, if_true]
      refine vc_mobile_fold_inv mems _
        ⟨nodup_keys_dincr _ _ _ (nodup_keys_dincr _ _ _ h1),
         nodup_keys_dincr _ _ _ (nodup_keys_dincr _ _ _ (nodup_keys_dincr _ _ _ h2)),
         h3,
         cKeys_dincr _ _ _ (cKeys_dincr _ _ _ h4 (by decide)) (by decide), h5⟩
  | category cid =>
    exact ⟨h1, nodup_keys_dincr _ _ _ (nodup_keys_dincr _ _ _ h2), h3, h4, h5⟩
  | other cid =>
    exact ⟨h1, nodup_keys_dincr _ _ _ h2, h3, h4, h5⟩

theorem channels_fold_inv (me : ℕ) (chs : List Channel) (ps : PassState)
    (h : PassInv ps) : PassInv (chs.foldl (processChannel me) ps) :=
  foldl_preserves PassInv _ (fun ps ch hp => processChannel_inv me ps ch hp) chs ps h

theorem nodup_keys_processEmoji (sc : List (String × Rat)) (e : Emoji)
    (h : (keys sc).Nodup) : (keys (processEmoji sc e)).Nodup := by
  unfold processEmoji
  split <;> exact nodup_keys_dincr _ _ _ (nodup_keys_dincr _ _ _ h)

theorem nodup_keys_emojis_fold (es : List Emoji) (sc : List (String × Rat))
    (h : (keys sc).Nodup) : (keys (es.foldl processEmoji sc)).Nodup :=
  foldl_preserves (fun sc => (keys sc).Nodup) _
    (fun sc e hc => nodup_keys_processEmoji sc e hc) es sc h

theorem stKeys_guildFlagsTally (g : Guild) (std : List (String × Finset ℕ))
    (hsub : ∀ k ∈ keys std, k ∈ stKeys) :
    ∀ k ∈ keys (guildFlagsTally g std), k ∈ stKeys := by
  unfold guildFlagsTally
  repeat' split
  all_goals
    repeat first
      | exact hsub
      | refine stKeys_dinsertTally _ _ _ ?_ (by decide)

theorem guildHeavyTail_inv (es : List Emoji) (psD : PassState)
    (h : PassInv psD) :
    PassInv { psD with server_counter := es.foldl processEmoji psD.server_counter } :=
  ⟨h.1, nodup_keys_emojis_fold _ _ h.2.1, h.2.2.1, h.2.2.2.1, h.2.2.2.2⟩

theorem guildHeavySection_inv (dt : Bool) (me : ℕ) (g : Guild) (ps : PassState)
    (h : PassInv ps) : PassInv (guildHeavySection dt me g ps) := by
  obtain ⟨h1, h2, h3, h4, h5⟩ := h
  cases dt with
  | false =>
    refine guildHeavyTail_inv g.emojis _ ?_
    refine channels_fold_inv me g.channels _ ?_
    exact ⟨h1, nodup_keys_dincr _ _ _ h2, h3, h4, stKeys_guildFlagsTally g _ h5⟩
  | true =>
    refine guildHeavyTail_inv g.emojis _ ?_
    refine channels_fold_inv me g.channels _ ?_
    exact ⟨h1, nodup_keys_dincr _ _ _ h2, h3, h4, stKeys_guildFlagsTally g _ h5⟩

theorem memberFold_inv (dt : Bool) (g : Guild) (psH : PassState)
    (h : PassInv psH) :
    PassInv { psH with temp_data := g.members.foldl (fun td m => processMember dt m td) psH.temp_data } := by
  obtain ⟨p1, p2, p3, p4, p5⟩ := h
  exact ⟨p1, p2, foldl_preserves (fun td => (keys td).Nodup) _
    (fun td m ht => nodup_keys_processMember dt m td ht) _ _ p3, p4, p5⟩

theorem processGuild_inv (lm dt : Bool) (me : ℕ) (ps : PassState) (g : Guild)
    (h : PassInv ps) : PassInv (processGuild lm dt me ps g) := by
  obtain ⟨h1, h2, h3, h4, h5⟩ := h
  cases hu : g.unavailable with
  | true =>
    have heq : processGuild lm dt me ps g
        = { ps with server_temp_data := dinsertTally ps.server_temp_data "Unavailable" g.id } := by
      simp [processGuild, hu]
    rw [heq]
    exact ⟨h1, h2, h3, h4, stKeys_dinsertTally _ _ _ h5 (by decide)⟩
  | false =>
    cases lm with
    | true =>
      simp only [processGuild, hu, Bool.false_eq_true, Bool.true_eq_false,
        if_false, eq_self_iff_true, if_true]
      refine memberFold_inv dt g
        { ps with server_counter := dincr ps.server_counter "Members" ((g.member_count : Rat)) } ?_
      exact ⟨h1, nodup_keys_dincr _ _ _ h2, h3, h4, h5⟩
    | false =>
      simp only [processGuild, hu, Bool.false_eq_true, Bool.true_eq_false,
        if_false, eq_self_iff_true, if_true]
      refine memberFold_inv dt g
        (guildHeavySection dt me g
          { ps with server_counter := dincr ps.server_counter "Members" ((g.member_count : Rat)) }) ?_
      refine guildHeavySection_inv dt me g _ ?_
      exact ⟨h1, nodup_keys_dincr _ _ _ h2, h3, h4, h5⟩

theorem guilds_fold_inv (lm dt : Bool) (me : ℕ) (gs : List Guild)
    (ps : PassState) (h : PassInv ps) :
    PassInv (gs.foldl (processGuild lm dt me) ps) :=
  foldl_preserves PassInv _ (fun ps g hp => processGuild_inv lm dt me ps g hp)
    gs ps h

/-! ## Lemmas about the tally flatten (`flattenTally`) -/

theorem flattenTally_notin (c : List (String × Rat)) (t : List (String × Finset ℕ))
    (k : String) (h : k ∉ keys t) : dget? (flattenTally c t) k = dget? c k := by
  induction t generalizing c with
  | nil => rfl
  | cons kv rest ih =>
    obtain ⟨k0, s0⟩ := kv
    simp only [keys, List.map_cons, List.mem_cons] at h
    push_neg at h
    rw [show flattenTally c ((k0, s0) :: rest)
        = flattenTally (dset c k0 ((s0.card : Rat))) rest from rfl]
    rw [ih _ h.2, dget?_dset_ne _ _ _ _ h.1]

theorem flattenTally_mem (c : List (String × Rat)) (t : List (String × Finset ℕ))
    (k : String) (s : Finset ℕ) (hnd : (keys t).Nodup) (h : dget? t k = some s) :
    dget? (flattenTally c t) k = some ((s.card : Rat)) := by
  induction t generalizing c with
  | nil => simp [dget?] at h
  | cons kv rest ih =>
    obtain ⟨k0, s0⟩ := kv
    rw [keys, List.map_cons, List.nodup_cons] at hnd
    rw [show flattenTally c ((k0, s0) :: rest)
        = flattenTally (dset c k0 ((s0.card : Rat))) rest from rfl]
    by_cases h0 : k0 = k
    · subst h0
      simp only [dget?, if_pos rfl] at h
      obtain rfl : s0 = s := Option.some.inj h
      rw [flattenTally_notin _ _ _ hnd.1, dget?_dset_self]
    · simp only [dget?, if_neg h0] at h
      exact ih _ hnd.2 h

theorem nodup_keys_flattenTally (c : List (String × Rat))
    (t : List (String × Finset ℕ)) (h : (keys c).Nodup) :
    (keys (flattenTally c t)).Nodup :=
  foldl_preserves (fun c => (keys c).Nodup) _
    (fun c kv hc => nodup_keys_dset _ _ _ hc) t c h

theorem mem_keys_flattenTally (c : List (String × Rat))
    (t : List (String × Finset ℕ)) (k : String)
    (h : k ∈ keys (flattenTally c t)) : k ∈ keys c ∨ k ∈ keys t := by
  induction t generalizing c with
  | nil => exact Or.inl h
  | cons kv rest ih =>
    rw [show flattenTally c (kv :: rest)
        = flattenTally (dset c kv.1 ((kv.2.card : Rat))) rest from rfl] at h
    rcases ih _ h with h1 | h1
    · rcases mem_keys_dset _ _ _ _ h1 with rfl | h2
      · right
        simp [keys]
      · exact Or.inl h2
    · right
      rw [keys, List.map_cons]
      exact List.mem_cons_of_mem _ h1

/-! ## C7: unique users versus reported member counts -/

theorem sum_len_le_sum_counts (gs : List Guild)
    (h : ∀ g ∈ gs, g.unavailable = false → (g.members.length : Int) ≤ g.member_count) :
    ((((gs.filter (fun g => !g.unavailable)).map (fun g => g.members.length)).sum : ℕ) : Rat)
      ≤ ((gs.filter (fun g => !g.unavailable)).map (fun g => ((g.member_count : Rat)))).sum := by
  rw [Nat.cast_list_sum, List.map_map]
  apply List.sum_le_sum
  intro g hg
  rw [List.mem_filter] at hg
  have h1 := h g hg.1 (by simpa using hg.2)
  simp only [Function.comp]
  exact_mod_cast h1

theorem bot_pass_core (b : BotInput) (lm dtx : Bool)
    (counter1 : List (String × Rat))
    (hnd1 : (keys counter1).Nodup) (hsub1 : ∀ k ∈ keys counter1, k ∈ cKeys)
    (h : ∀ g ∈ b.guilds, g.unavailable = false →
      (g.members.length : Int) ≤ g.member_count) :
    ((writeAll initStats.bot (flattenTally
        (b.guilds.foldl (processGuild lm dtx b.me_id)
          ⟨counter1, dset [] "Total" ((b.guilds.length : Rat)), [], [], [], [], []⟩).counter
        (b.guilds.foldl (processGuild lm dtx b.me_id)
          ⟨counter1, dset [] "Total" ((b.guilds.length : Rat)), [], [], [], [], []⟩).temp_data))
      "Unique Users").getD 0
      ≤ ((((b.guilds.filter (fun g => !g.unavailable)).map
          (fun g => g.members.length)).sum : ℕ) : Rat)
    ∧ ((writeAll initStats.guilds (flattenTally
        (b.guilds.foldl (processGuild lm dtx b.me_id)
          ⟨counter1, dset [] "Total" ((b.guilds.length : Rat)), [], [], [], [], []⟩).server_counter
        (b.guilds.foldl (processGuild lm dtx b.me_id)
          ⟨counter1, dset [] "Total" ((b.guilds.length : Rat)), [], [], [], [], []⟩).server_temp_data))
      "Members").getD 0
      = ((b.guilds.filter (fun g => !g.unavailable)).map
          (fun g => ((g.member_count : Rat)))).sum := by
  set ps0 : PassState :=
    ⟨counter1, dset [] "Total" ((b.guilds.length : Rat)), [], [], [], [], []⟩ with hps0
  set psF := b.guilds.foldl (processGuild lm dtx b.me_id) ps0 with hpsF
  have hInv0 : PassInv ps0 := by
    refine ⟨hnd1, ?_, ?_, hsub1, ?_⟩
    · simp [hps0, dset, keys]
    · simp [hps0, keys]
    · simp [hps0, keys]
  obtain ⟨i1, i2, i3, i4, i5⟩ :=
    guilds_fold_inv lm dtx b.me_id b.guilds ps0 hInv0
  have hcard := guilds_fold_uu_card lm dtx b.me_id b.guilds ps0
  have h0 : dgetD ps0.temp_data "Unique Users" ∅ = ∅ := rfl
  rw [h0] at hcard
  simp only [Finset.card_empty, Nat.zero_add] at hcard
  constructor
  · cases ht : dget? psF.temp_data "Unique Users" with
    | some stS =>
      have hc2 : dget? (flattenTally psF.counter psF.temp_data) "Unique Users"
          = some ((stS.card : Rat)) := flattenTally_mem _ _ _ _ i3 ht
      have hw : writeAll initStats.bot (flattenTally psF.counter psF.temp_data)
          "Unique Users" = some ((stS.card : Rat)) :=
        writeAll_mem _ _ _ _ (nodup_keys_flattenTally _ _ i1) hc2
      rw [hw]
      simp only [Option.getD_some]
      have hle : stS.card ≤ ((b.guilds.filter fun g => !g.unavailable).map
          fun g => g.members.length).sum := by
        have h2 := hcard
        rw [show dgetD psF.temp_data "Unique Users" ∅ = stS from by
          simp [dgetD, ht]] at h2
        exact h2
      exact_mod_cast hle
    | none =>
      have hnotin := not_mem_keys_of_dget?_eq_none _ _ ht
      have hc2 : dget? (flattenTally psF.counter psF.temp_data) "Unique Users"
          = dget? psF.counter "Unique Users" := flattenTally_notin _ _ _ hnotin
      have hcnone : dget? psF.counter "Unique Users" = none := by
        apply dget?_eq_none_of_not_mem_keys
        intro hk
        have hmem := i4 _ hk
        simp [cKeys] at hmem
      have hw : writeAll initStats.bot (flattenTally psF.counter psF.temp_data)
          "Unique Users" = none := by
        rw [writeAll_get _ _ _ (nodup_keys_flattenTally _ _ i1), hc2, hcnone]
        rfl
      rw [hw]
      simp only [Option.getD_none]
      rw [Nat.cast_list_sum, List.map_map]
      apply List.sum_nonneg
      intro x hx
      simp only [List.mem_map] at hx
      obtain ⟨g, hgmem, rfl⟩ := hx
      exact Nat.cast_nonneg _
  · have hMem := guilds_fold_members lm dtx b.me_id b.guilds ps0
    have h0m : dgetD ps0.server_counter "Members" 0 = 0 := by
      simp [hps0, dset, dgetD, dget?]
    rw [h0m, zero_add] at hMem
    have hstne : "Members" ∉ keys psF.server_temp_data := by
      intro hk
      have hmem := i5 _ hk
      simp [stKeys] at hmem
    have hs2 : dget? (flattenTally psF.server_counter psF.server_temp_data) "Members"
        = dget? psF.server_counter "Members" := flattenTally_notin _ _ _ hstne
    cases hM : dget? psF.server_counter "Members" with
    | some v =>
      have hv : v = ((b.guilds.filter (fun g => !g.unavailable)).map
          (fun g => ((g.member_count : Rat)))).sum := by
        rw [dgetD, hM] at hMem
        simpa using hMem
      have hw : writeAll initStats.guilds
          (flattenTally psF.server_counter psF.server_temp_data) "Members" = some v :=
        writeAll_mem _ _ _ _ (nodup_keys_flattenTally _ _ i2) (hs2.trans hM)
      rw [hw]
      simpa using hv
    | none =>
      have hz : (0 : Rat) = ((b.guilds.filter (fun g => !g.unavailable)).map
          (fun g => ((g.member_count : Rat)))).sum := by
        rw [dgetD, hM] at hMem
        simpa using hMem
      have hw : writeAll initStats.guilds
          (flattenTally psF.server_counter psF.server_temp_data) "Members" = none := by
        rw [writeAll_get _ _ _ (nodup_keys_flattenTally _ _ i2), hs2, hM]
        rfl
      rw [hw]
      simpa using hz

/-- **C7** (amended).  The deduplicated `"Unique Users"` count is always at
most the total length of the cached member lists of the available guilds.
The published `"Members"` counter, however, sums the host-reported
`member_count` attribute (`getattr(guild, "member_count", 0)`), which is
distinct data from the member lists the unique-user tally iterates; the
claimed inequality against the published value holds under the hypothesis
that each available guild's cached member list is no longer than its
reported `member_count`. -/
theorem unique_users_le_member_counts (b : BotInput) (lm dt : Bool)
    (h : ∀ g ∈ b.guilds, g.unavailable = false →
      (g.members.length : Int) ≤ g.member_count) :
    ∃ s, write_bot_data b lm dt false initStats = Except.ok s ∧
      (s.bot "Unique Users").getD 0
        ≤ ((((b.guilds.filter (fun g => !g.unavailable)).map
            (fun g => g.members.length)).sum : ℕ) : Rat) ∧
      (s.guilds "Members").getD 0
        = ((b.guilds.filter (fun g => !g.unavailable)).map
            (fun g => ((g.member_count : Rat)))).sum ∧
      (s.bot "Unique Users").getD 0 ≤ (s.guilds "Members").getD 0 := by
  obtain ⟨gl, sc, lat?, me, key, vout⟩ := b
  have hsum := sum_len_le_sum_counts gl h
  cases lm with
  | true =>
    cases lat? with
    | none =>
      have hcore := bot_pass_core ⟨gl, sc, none, me, key, vout⟩ true false
        (dset [] "Shards" ((sc : Rat))) (by simp [dset, keys])
        (by intro k hk; simp [dset, keys] at hk; simp [hk, cKeys]) h
      exact ⟨_, rfl, hcore.1, hcore.2,
        le_trans (le_trans hcore.1 hsum) (le_of_eq hcore.2.symm)⟩
    | some ms =>
      have hcore := bot_pass_core ⟨gl, sc, some ms, me, key, vout⟩ true false
        (dset (dset [] "Discord Latency" ((ms : Rat))) "Shards" ((sc : Rat)))
        (by simp [dset, keys])
        (by intro k hk; simp [dset, keys] at hk
            rcases hk with hk | hk <;> simp [hk, cKeys]) h
      exact ⟨_, rfl, hcore.1, hcore.2,
        le_trans (le_trans hcore.1 hsum) (le_of_eq hcore.2.symm)⟩
  | false =>
    cases lat? with
    | none =>
      have hcore := bot_pass_core ⟨gl, sc, none, me, key, vout⟩ false dt
        (dset [] "Shards" ((sc : Rat))) (by simp [dset, keys])
        (by intro k hk; simp [dset, keys] at hk; simp [hk, cKeys]) h
      exact ⟨_, rfl, hcore.1, hcore.2,
        le_trans (le_trans hcore.1 hsum) (le_of_eq hcore.2.symm)⟩
    | some ms =>
      have hcore := bot_pass_core ⟨gl, sc, some ms, me, key, vout⟩ false dt
        (dset (dset [] "Discord Latency" ((ms : Rat))) "Shards" ((sc : Rat)))
        (by simp [dset, keys])
        (by intro k hk; simp [dset, keys] at hk
            rcases hk with hk | hk <;> simp [hk, cKeys]) h
      exact ⟨_, rfl, hcore.1, hcore.2,
        le_trans (le_trans hcore.1 hsum) (le_of_eq hcore.2.symm)⟩

/-- A guild whose host-reported `member_count` attribute (0) undercounts
its cached member list (1 member). -/
def cPlainMember : Member :=
  { id := 21, bot := false, on_mobile := false, activities := [],
    status := PyStatus.online, mobile_status := PyStatus.offline,
    desktop_status := PyStatus.offline, web_status := PyStatus.offline }

def cGuildUndercount : Guild :=
  { id := 5, unavailable := false, member_count := 0, features := [],
    verification_level := "none", roles := [], large := false, chunked := true,
    premium_tier := 0, channels := [], emojis := [], members := [cPlainMember] }

/-- Bot input holding only `cGuildUndercount`. -/
def cBotUndercount : BotInput :=
  { guilds := [cGuildUndercount], shard_count := 1, latency_ms? := none,
    me_id := 99, api_key := "", vote_outcome := ReqOutcome.timeout }

/-- **C7** (counterexample).  When a guild's reported `member_count`
attribute (which is what the published `"Members"` counter sums) is
smaller than its cached member list, the published `Unique Users` count
(here 1) exceeds the published `Members` sum (here 0), so the claimed
inequality against the per-guild member counts published by the collector
fails. -/
theorem unique_users_exceeds_reported_members :
    ((write_bot_data cBotUndercount false false false initStats).map
      (fun s => (s.bot "Unique Users", s.guilds "Members"))
      = Except.ok (some 1, some ((0 : Rat) + ((0 : Int) : Rat))))
    ∧ ¬ ((1 : Rat) ≤ (0 : Rat) + ((0 : Int) : Rat)) :=
  ⟨rfl, by norm_num⟩

/-- **C7** (witness for the amended claim). -/
theorem unique_users_le_member_counts_witness :
    ∃ s, write_bot_data (cBotOf cMemberFiveAct) false false false initStats
        = Except.ok s ∧
      (s.bot "Unique Users").getD 0 ≤ (s.guilds "Members").getD 0 := by
  obtain ⟨s, hs, h1, h2, h3⟩ :=
    unique_users_le_member_counts (cBotOf cMemberFiveAct) false false (by decide)
  exact ⟨s, hs, h3⟩


/-! ## C8 machinery: what a light-mode cycle can touch -/

/-- Under light mode `write_audio_data` returns before touching the store. -/
theorem write_audio_data_lightmode (dc : Bool) (players : List Player)
    (mt? : Option MartTools) (st : StatsNS) :
    write_audio_data true dc players mt? st = Except.ok st := rfl

/-- Under light mode `write_adventure_data` returns before touching the store. -/
theorem write_adventure_data_lightmode
    (c? : Option (Except PyErr (List (ℕ × AdvRaw)))) (st : StatsNS) :
    write_adventure_data c? true st = Except.ok st := by
  cases c? with
  | none => rfl
  | some r => rfl

/-- `write_currency_data` only ever writes the single label
`"Currency In Circulation"` of the currency category. -/
theorem write_currency_data_frame (n : ℕ)
    (acc : Except PyErr (List (Nat × CurAcct))) (st s : StatsNS)
    (h : write_currency_data n acc st = Except.ok s) :
    s.guilds = st.guilds ∧ s.bot = st.bot ∧ s.shards = st.shards ∧
    s.audio = st.audio ∧ s.guilds_regions = st.guilds_regions ∧
    s.guild_features = st.guild_features ∧
    s.guild_verification = st.guild_verification ∧ s.adventure = st.adventure ∧
    (∀ k, k ≠ "Currency In Circulation" → s.currency k = st.currency k) := by
  cases acc with
  | error e => exact Except.noConfusion h
  | ok accts =>
    have h2 := Except.ok.inj h
    subst h2
    refine ⟨rfl, rfl, rfl, rfl, rfl, rfl, rfl, rfl, ?_⟩
    intro k hk
    exact fset_ne _ _ _ _ hk

/-- `write_shards_data` only ever writes the shards category. -/
theorem write_shards_data_frame (lat : Except PyErr (List (Int × Rat)))
    (st s : StatsNS) (h : write_shards_data lat st = Except.ok s) :
    s.guilds = st.guilds ∧ s.bot = st.bot ∧ s.audio = st.audio ∧
    s.currency = st.currency ∧ s.guilds_regions = st.guilds_regions ∧
    s.guild_features = st.guild_features ∧
    s.guild_verification = st.guild_verification ∧ s.adventure = st.adventure := by
  cases lat with
  | error e => exact Except.noConfusion h
  | ok ls =>
    have h2 := Except.ok.inj h
    subst h2
    exact ⟨rfl, rfl, rfl, rfl, rfl, rfl, rfl, rfl⟩

/-- With `detailed = false` a member only joins the
`Unique Users`/`Bots`/`Humans` tallies. -/
theorem processMember_false_keys (m : Member) (td : List (String × Finset ℕ))
    (k : String) (h : k ∈ keys (processMember false m td)) :
    k ∈ keys td ∨ k ∈ (["Unique Users", "Bots", "Humans"] : List String) := by
  simp only [processMember, Bool.false_eq_true, if_false] at h
  cases hb : m.bot with
  | true =>
    simp only [hb, if_true] at h
    rcases mem_keys_dinsertTally _ _ _ _ h with rfl | h2
    · right; simp
    · rcases mem_keys_dinsertTally _ _ _ _ h2 with rfl | h3
      · right; simp
      · exact Or.inl h3
  | false =>
    simp only [hb, Bool.false_eq_true, if_false] at h
    rcases mem_keys_dinsertTally _ _ _ _ h with rfl | h2
    · right; simp
    · rcases mem_keys_dinsertTally _ _ _ _ h2 with rfl | h3
      · right; simp
      · exact Or.inl h3

theorem membersFold_false_keys (ms : List Member) (td : List (String × Finset ℕ))
    (k : String)
    (h : k ∈ keys (ms.foldl (fun td m => processMember false m td) td)) :
    k ∈ keys td ∨ k ∈ (["Unique Users", "Bots", "Humans"] : List String) := by
  induction ms generalizing td with
  | nil => exact Or.inl h
  | cons m rest ih =>
    rw [List.foldl_cons] at h
    rcases ih _ h with h1 | h1
    · exact processMember_false_keys m td k h1
    · exact Or.inr h1

/-- Under light mode a guild never touches the bot-level counter or the
three histogram counters, adds at most `"Members"` to the guild counter,
at most the unique/bot/human tallies to `temp_data`, and at most
`"Unavailable"` to the guild set-tally. -/
theorem processGuild_light_frame (me : ℕ) (ps : PassState) (g : Guild) :
    (processGuild true false me ps g).counter = ps.counter ∧
    (processGuild true false me ps g).region_count = ps.region_count ∧
    (processGuild true false me ps g).features_count = ps.features_count ∧
    (processGuild true false me ps g).verify_count = ps.verify_count ∧
    (∀ k, k ∈ keys (processGuild true false me ps g).server_counter →
      k ∈ keys ps.server_counter ∨ k = "Members") ∧
    (∀ k, k ∈ keys (processGuild true false me ps g).temp_data →
      k ∈ keys ps.temp_data ∨ k ∈ (["Unique Users", "Bots", "Humans"] : List String)) ∧
    (∀ k, k ∈ keys (processGuild true false me ps g).server_temp_data →
      k ∈ keys ps.server_temp_data ∨ k = "Unavailable") := by
  cases hu : g.unavailable with
  | true =>
    have he : processGuild true false me ps g = { ps with server_temp_data := dinsertTally ps.server_temp_data "Unavailable" g.id } := by
      simp [processGuild, hu]
    rw [he]
    refine ⟨rfl, rfl, rfl, rfl, fun k hk => Or.inl hk, fun k hk => Or.inl hk, ?_⟩
    intro k hk
    rcases mem_keys_dinsertTally _ _ _ _ hk with rfl | h2
    · exact Or.inr rfl
    · exact Or.inl h2
  | false =>
    have he : processGuild true false me ps g = { ps with server_counter := dincr ps.server_counter "Members" ((g.member_count : Rat)), temp_data := g.members.foldl (fun td m => processMember false m td) ps.temp_data } := by
      simp [processGuild, hu]
    rw [he]
    refine ⟨rfl, rfl, rfl, rfl, ?_, ?_, fun k hk => Or.inl hk⟩
    · intro k hk
      rcases mem_keys_dincr _ _ _ _ hk with rfl | h2
      · exact Or.inr rfl
      · exact Or.inl h2
    · intro k hk
      exact membersFold_false_keys g.members ps.temp_data k hk

/-- The light-mode guild loop as a whole respects the same frame. -/
theorem guildsFold_light_frame (me : ℕ) (gs : List Guild) (ps : PassState) :
    (gs.foldl (processGuild true false me) ps).counter = ps.counter ∧
    (gs.foldl (processGuild true false me) ps).region_count = ps.region_count ∧
    (gs.foldl (processGuild true false me) ps).features_count = ps.features_count ∧
    (gs.foldl (processGuild true false me) ps).verify_count = ps.verify_count ∧
    (∀ k, k ∈ keys (gs.foldl (processGuild true false me) ps).server_counter →
      k ∈ keys ps.server_counter ∨ k = "Members") ∧
    (∀ k, k ∈ keys (gs.foldl (processGuild true false me) ps).temp_data →
      k ∈ keys ps.temp_data ∨ k ∈ (["Unique Users", "Bots", "Humans"] : List String)) ∧
    (∀ k, k ∈ keys (gs.foldl (processGuild true false me) ps).server_temp_data →
      k ∈ keys ps.server_temp_data ∨ k = "Unavailable") := by
  induction gs generalizing ps with
  | nil =>
    exact ⟨rfl, rfl, rfl, rfl, fun k hk => Or.inl hk, fun k hk => Or.inl hk,
      fun k hk => Or.inl hk⟩
  | cons g rest ih =>
    rw [List.foldl_cons]
    obtain ⟨p1, p2, p3, p4, p5, p6, p7⟩ := processGuild_light_frame me ps g
    obtain ⟨q1, q2, q3, q4, q5, q6, q7⟩ := ih (processGuild true false me ps g)
    refine ⟨q1.trans p1, q2.trans p2, q3.trans p3, q4.trans p4, ?_, ?_, ?_⟩
    · intro k hk
      rcases q5 k hk with h1 | h1
      · exact p5 k h1
      · exact Or.inr h1
    · intro k hk
      rcases q6 k hk with h1 | h1
      · exact p6 k h1
      · exact Or.inr h1
    · intro k hk
      rcases q7 k hk with h1 | h1
      · exact p7 k h1
      · exact Or.inr h1

theorem mem_L5_of_mem_UBH (k : String)
    (h : k ∈ (["Unique Users", "Bots", "Humans"] : List String)) :
    k ∈ (["Discord Latency", "Shards", "Unique Users", "Bots",
      "Humans"] : List String) := by
  simp only [List.mem_cons, List.not_mem_nil, or_false] at h ⊢
  tauto

/-- Core of the light-mode frame of `write_bot_data`: with the bot-level
counter seeded only with latency/shard keys, the pass leaves every bot
label outside latency/shards/unique/bots/humans and every guild label
outside total/members/unavailable untouched, and writes nothing to the
region/feature/verification histograms. -/
theorem bot_light_core (b : BotInput) (st : StatsNS)
    (counter1 : List (String × Rat))
    (hsub1 : ∀ k ∈ keys counter1, k = "Discord Latency" ∨ k = "Shards") :
    (∀ k, k ∉ (["Discord Latency", "Shards", "Unique Users", "Bots",
        "Humans"] : List String) →
      writeAll st.bot (flattenTally
        (b.guilds.foldl (processGuild true false b.me_id)
          ⟨counter1, dset [] "Total" ((b.guilds.length : Rat)), [], [], [], [], []⟩).counter
        (b.guilds.foldl (processGuild true false b.me_id)
          ⟨counter1, dset [] "Total" ((b.guilds.length : Rat)), [], [], [], [], []⟩).temp_data) k
        = st.bot k) ∧
    (∀ k, k ∉ (["Total", "Members", "Unavailable"] : List String) →
      writeAll st.guilds (flattenTally
        (b.guilds.foldl (processGuild true false b.me_id)
          ⟨counter1, dset [] "Total" ((b.guilds.length : Rat)), [], [], [], [], []⟩).server_counter
        (b.guilds.foldl (processGuild true false b.me_id)
          ⟨counter1, dset [] "Total" ((b.guilds.length : Rat)), [], [], [], [], []⟩).server_temp_data) k
        = st.guilds k) ∧
    writeAll st.guilds_regions
      (b.guilds.foldl (processGuild true false b.me_id)
        ⟨counter1, dset [] "Total" ((b.guilds.length : Rat)), [], [], [], [], []⟩).region_count
      = st.guilds_regions ∧
    writeAll st.guild_features
      (b.guilds.foldl (processGuild true false b.me_id)
        ⟨counter1, dset [] "Total" ((b.guilds.length : Rat)), [], [], [], [], []⟩).features_count
      = st.guild_features ∧
    writeAll st.guild_verification
      (b.guilds.foldl (processGuild true false b.me_id)
        ⟨counter1, dset [] "Total" ((b.guilds.length : Rat)), [], [], [], [], []⟩).verify_count
      = st.guild_verification := by
  obtain ⟨f1, f2, f3, f4, f5, f6, f7⟩ :=
    guildsFold_light_frame b.me_id b.guilds
      ⟨counter1, dset [] "Total" ((b.guilds.length : Rat)), [], [], [], [], []⟩
  refine ⟨?_, ?_, ?_, ?_, ?_⟩
  · intro k hk
    apply writeAll_notin
    intro hmem
    rcases mem_keys_flattenTally _ _ _ hmem with h1 | h1
    · rw [f1] at h1
      rcases hsub1 k h1 with rfl | rfl
      · exact hk (by simp)
      · exact hk (by simp)
    · rcases f6 k h1 with h2 | h2
      · exact absurd h2 (by simp [keys])
      · exact hk (mem_L5_of_mem_UBH k h2)
  · intro k hk
    apply writeAll_notin
    intro hmem
    rcases mem_keys_flattenTally _ _ _ hmem with h1 | h1
    · rcases f5 k h1 with h2 | h2
      · have h3 : k = "Total" := by simpa [dset, keys] using h2
        exact hk (by simp [h3])
      · exact hk (by simp [h2])
    · rcases f7 k h1 with h2 | h2
      · exact absurd h2 (by simp [keys])
      · exact hk (by simp [h2])
  · rw [f2]
    rfl
  · rw [f3]
    rfl
  · rw [f4]
    rfl

/-- Under light mode `write_bot_data` always succeeds, leaves the other
collectors' categories alone, writes none of the three histogram
categories, and can only populate latency/shards/unique/bots/humans in
the bot category and total/members/unavailable in the guilds category. -/
theorem write_bot_data_lightmode_frame (b : BotInput) (dc tc : Bool)
    (st : StatsNS) :
    ∃ s, write_bot_data b true dc tc st = Except.ok s ∧
      s.shards = st.shards ∧ s.audio = st.audio ∧ s.currency = st.currency ∧
      s.adventure = st.adventure ∧ s.guilds_regions = st.guilds_regions ∧
      s.guild_features = st.guild_features ∧
      s.guild_verification = st.guild_verification ∧
      (∀ k, k ∉ (["Discord Latency", "Shards", "Unique Users", "Bots",
          "Humans"] : List String) → s.bot k = st.bot k) ∧
      (∀ k, k ∉ (["Total", "Members", "Unavailable"] : List String) →
        s.guilds k = st.guilds k) := by
  obtain ⟨gl, sc, lat?, me, key, vout⟩ := b
  cases lat? with
  | none =>
    obtain ⟨hbot, hg, hrg, hft, hvf⟩ := bot_light_core ⟨gl, sc, none, me, key, vout⟩
      st (dset [] "Shards" ((sc : Rat)))
      (by intro k hk; simp [dset, keys] at hk; simp [hk])
    exact ⟨_, rfl, rfl, rfl, rfl, rfl, hrg, hft, hvf, hbot, hg⟩
  | some ms =>
    obtain ⟨hbot, hg, hrg, hft, hvf⟩ := bot_light_core ⟨gl, sc, some ms, me, key, vout⟩
      st (dset (dset [] "Discord Latency" ((ms : Rat))) "Shards" ((sc : Rat)))
      (by intro k hk; simp [dset, keys] at hk
          rcases hk with hk | hk <;> simp [hk])
    exact ⟨_, rfl, rfl, rfl, rfl, rfl, hrg, hft, hvf, hbot, hg⟩

/-- One `asyncio.gather(..., return_exceptions=True)` step on a task that
completes. -/
theorem gather_true_step (t : StatsNS → Except PyErr StatsNS)
    (ts : List (StatsNS → Except PyErr StatsNS)) (st s1 : StatsNS)
    (h : t st = Except.ok s1) :
    asyncio_gather true (t :: ts) st = asyncio_gather true ts s1 := by
  simp only [asyncio_gather, h]

/-- One `asyncio.gather(..., return_exceptions=True)` step on a task that
raises: the exception is captured and the state is unchanged. -/
theorem gather_true_step_err (t : StatsNS → Except PyErr StatsNS)
    (ts : List (StatsNS → Except PyErr StatsNS)) (st : StatsNS) (e : PyErr)
    (h : t st = Except.error e) :
    asyncio_gather true (t :: ts) st = asyncio_gather true ts st := by
  simp only [asyncio_gather, h, if_true]

/-- The currency collector's `gather` step, whether or not its host read
raises, changes at most the `"Currency In Circulation"` label. -/
theorem currency_gather_step (acc : Except PyErr (List (Nat × CurAcct)))
    (ts : List (StatsNS → Except PyErr StatsNS)) (st : StatsNS) :
    ∃ s2, asyncio_gather true ((fun s => write_currency_data 50 acc s) :: ts) st
        = asyncio_gather true ts s2 ∧
      s2.guilds = st.guilds ∧ s2.bot = st.bot ∧ s2.audio = st.audio ∧
      s2.guilds_regions = st.guilds_regions ∧
      s2.guild_features = st.guild_features ∧
      s2.guild_verification = st.guild_verification ∧
      s2.adventure = st.adventure ∧
      (∀ k, k ≠ "Currency In Circulation" → s2.currency k = st.currency k) := by
  cases hc : write_currency_data 50 acc st with
  | error e =>
    exact ⟨st, gather_true_step_err _ _ _ _ hc, rfl, rfl, rfl, rfl, rfl, rfl, rfl,
      fun k hk => rfl⟩
  | ok s2 =>
    obtain ⟨g1, g2, g3, g4, g5, g6, g7, g8, g9⟩ :=
      write_currency_data_frame 50 acc st s2 hc
    exact ⟨s2, gather_true_step _ _ _ _ hc, g1, g2, g4, g5, g6, g7, g8, g9⟩

/-- The shard collector's `gather` step, whether or not its host read
raises, changes at most the shards category. -/
theorem shards_gather_step (lat : Except PyErr (List (Int × Rat)))
    (ts : List (StatsNS → Except PyErr StatsNS)) (st : StatsNS) :
    ∃ s2, asyncio_gather true ((fun s => write_shards_data lat s) :: ts) st
        = asyncio_gather true ts s2 ∧
      s2.guilds = st.guilds ∧ s2.bot = st.bot ∧ s2.audio = st.audio ∧
      s2.currency = st.currency ∧ s2.guilds_regions = st.guilds_regions ∧
      s2.guild_features = st.guild_features ∧
      s2.guild_verification = st.guild_verification ∧
      s2.adventure = st.adventure := by
  cases hc : write_shards_data lat st with
  | error e =>
    exact ⟨st, gather_true_step_err _ _ _ _ hc, rfl, rfl, rfl, rfl, rfl, rfl, rfl,
      rfl⟩
  | ok s2 =>
    obtain ⟨g1, g2, g3, g4, g5, g6, g7, g8⟩ := write_shards_data_frame lat st s2 hc
    exact ⟨s2, gather_true_step _ _ _ _ hc, g1, g2, g3, g4, g5, g6, g7, g8⟩

/-- **C8** (amended).  Under light mode a full cycle starting from the
fresh store populates at most: `Discord Latency`, `Shards`,
`Unique Users`, `Bots` and `Humans` in the bot category;
`Total`, `Members` and `Unavailable` in the guilds category; the
per-shard latencies; and `Currency In Circulation` in the currency
category.  The audio and adventure categories and the three histogram
categories stay entirely absent, as does every detailed-only label.  The
original claim is too narrow: the guild-level `Total`/`Members`/
`Unavailable` labels and the bot-level `Discord Latency`/`Shards` labels
are populated by a light-mode pass as well. -/
theorem run_events_lightmode_frame (I : Inputs) (hlm : I.lightmode = true) :
    ∃ s, run_events I initStats = Except.ok s ∧
      (∀ k, s.audio k = none) ∧ (∀ k, s.adventure k = none) ∧
      (∀ k, s.guilds_regions k = none) ∧ (∀ k, s.guild_features k = none) ∧
      (∀ k, s.guild_verification k = none) ∧
      (∀ k, k ∉ (["Discord Latency", "Shards", "Unique Users", "Bots",
          "Humans"] : List String) → s.bot k = none) ∧
      (∀ k, k ∉ (["Total", "Members", "Unavailable"] : List String) →
        s.guilds k = none) ∧
      (∀ k, k ≠ "Currency In Circulation" → s.currency k = none) := by
  obtain ⟨s1, h1, a_sh, a_au, a_cu, a_ad, a_rg, a_ft, a_vf, a_bot, a_g⟩ :=
    write_bot_data_lightmode_frame I.bot I.detailed I.topgg initStats
  obtain ⟨s2, h2, b_g, b_bot, b_au, b_rg, b_ft, b_vf, b_ad, b_cu⟩ :=
    currency_gather_step I.accounts
      [fun s => write_shards_data I.latencies s,
       fun s => write_audio_data true I.detailed I.players I.martTools? s,
       fun s => write_adventure_data I.adv_cog? true s] s1
  obtain ⟨s3, h3, c_g, c_bot, c_au, c_cu, c_rg, c_ft, c_vf, c_ad⟩ :=
    shards_gather_step I.latencies
      [fun s => write_audio_data true I.detailed I.players I.martTools? s,
       fun s => write_adventure_data I.adv_cog? true s] s2
  have h4 : asyncio_gather true
      [fun s => write_audio_data true I.detailed I.players I.martTools? s,
       fun s => write_adventure_data I.adv_cog? true s] s3
      = asyncio_gather true [fun s => write_adventure_data I.adv_cog? true s] s3 :=
    gather_true_step _ _ _ _
      (write_audio_data_lightmode I.detailed I.players I.martTools? s3)
  have h5 : asyncio_gather true
      [fun s => write_adventure_data I.adv_cog? true s] s3 = Except.ok s3 :=
    gather_true_step _ _ _ _ (write_adventure_data_lightmode I.adv_cog? s3)
  have h0 : run_events I initStats
      = asyncio_gather true
        [fun s => write_bot_data I.bot true I.detailed I.topgg s,
         fun s => write_currency_data 50 I.accounts s,
         fun s => write_shards_data I.latencies s,
         fun s => write_audio_data true I.detailed I.players I.martTools? s,
         fun s => write_adventure_data I.adv_cog? true s] initStats := by
    simp only [run_events, hlm]
  have hrun : run_events I initStats = Except.ok s3 := by
    rw [h0, gather_true_step _ _ _ _ h1, h2, h3, h4, h5]
  refine ⟨s3, hrun, ?_, ?_, ?_, ?_, ?_, ?_, ?_, ?_⟩
  · intro k
    rw [c_au, b_au, a_au]
    rfl
  · intro k
    rw [c_ad, b_ad, a_ad]
    rfl
  · intro k
    rw [c_rg, b_rg, a_rg]
    rfl
  · intro k
    rw [c_ft, b_ft, a_ft]
    rfl
  · intro k
    rw [c_vf, b_vf, a_vf]
    rfl
  · intro k hk
    rw [c_bot, b_bot, a_bot k hk]
    rfl
  · intro k hk
    rw [c_g, b_g, a_g k hk]
    rfl
  · intro k hk
    rw [c_cu, b_cu k hk, a_cu]
    rfl

/-- **C8** (counterexample).  With light mode enabled the guild pass still
publishes the guild-level `"Total"` label (here `1` for one available
guild), which is neither a unique-user/bot/human count nor shard-latency
nor currency data — so the claimed light-mode frame is too narrow. -/
theorem lightmode_populates_guild_total :
    (write_bot_data (cBotOf cMemberFiveAct) true false false initStats).map
      (fun s => s.guilds "Total") = Except.ok (some 1) := rfl

/-- A light-mode cycle's host inputs used to witness the amended frame. -/
def cInputsLight : Inputs :=
  { bot := cBotOf cMemberFiveAct, lightmode := true, detailed := true,
    topgg := true, accounts := Except.ok [], latencies := Except.ok [],
    players := [], martTools? := none, adv_cog? := none }

/-- **C8** (witness for the amended claim). -/
theorem run_events_lightmode_frame_witness :
    cInputsLight.lightmode = true ∧
    ∃ s, run_events cInputsLight initStats = Except.ok s ∧
      (∀ k, s.audio k = none) ∧ (∀ k, s.adventure k = none) ∧
      (∀ k, s.guilds_regions k = none) ∧ (∀ k, s.guild_features k = none) ∧
      (∀ k, s.guild_verification k = none) ∧
      (∀ k, k ∉ (["Discord Latency", "Shards", "Unique Users", "Bots",
          "Humans"] : List String) → s.bot k = none) ∧
      (∀ k, k ∉ (["Total", "Members", "Unavailable"] : List String) →
        s.guilds k = none) ∧
      (∀ k, k ≠ "Currency In Circulation" → s.currency k = none) :=
  ⟨rfl, run_events_lightmode_frame cInputsLight rfl⟩


end StatsTask
